import Mathlib

/-!
# Mining worker (`mining_worker_1_normal.js`)

A shallow embedding of the worker script: the message handler `self.onmessage`,
the scan loop `processNonceRanges` / `processNonceRange`, the thermal governor
`checkThermal` and the classifier `isValidBlock`.

The worker is a single cooperative coroutine.  Its module-level variables are
the record `Globals`; the point at which the coroutine is suspended (an `await`
of the source) is a `Pc`; what the environment does to it is an `Event`
(a message is delivered, or the pending `await` is resumed).  Every function
below runs one synchronous stretch of the source, from one suspension to the
next.  `Date.now()` is an input: each event carries the clock reading used by
the stretch it starts (no stretch reads the clock twice).  The body of
`calculateHashGPU` is a parameter `score`, a function of the Task, the nonce and
the timestamp; a digest is a string, or nothing (`null`).

Numbers are integers and exact: nonces, bounds and clock readings are
JavaScript numbers in the source, exact on integers below 2^53 in absolute
value, and a factor is the integer that `BigInt` makes of the field.  The rates
of the governor are exact rationals; the source computes them in double
precision, so a ratio within rounding distance of the threshold 0.7 may be
decided differently there.

A message may be delivered at every suspension.  The event loop of a browser
delivers one only while the coroutine waits for a timer, for a range or for a
scoring function that really suspends; those runs are among the runs here.
-/

namespace MiningWorker

/-! ## Classification (`isValidBlock`, source lines 292-309) -/

/-- The three strings `isValidBlock` returns. -/
inductive ValidState where
  | valid
  | share
  | notValid
  deriving DecidableEq, Repr

/-- An exception of the JavaScript runtime (`BigInt(undefined)`, a property
read on `null`). -/
inductive JsError where
  | typeError
  deriving DecidableEq, Repr

/-- One character of the class `[0-9a-fA-F]`. -/
def isHexDigit (c : Char) : Bool :=
  decide (('0' ≤ c ∧ c ≤ '9') ∨ ('a' ≤ c ∧ c ≤ 'f') ∨ ('A' ≤ c ∧ c ≤ 'F'))

/-- The test `/^[0-9a-fA-F]+$/.test(hash)`: one or more characters, all of them
hexadecimal digits. -/
def hexRegexTest (hash : String) : Bool :=
  !hash.data.isEmpty && hash.data.all isHexDigit

/-- Value of one hexadecimal digit, as `BigInt` reads it. -/
def hexDigitValue (c : Char) : Nat :=
  if '0' ≤ c ∧ c ≤ '9' then c.toNat - 48
  else if 'a' ≤ c ∧ c ≤ 'f' then c.toNat - 87
  else c.toNat - 55

/-- The conversion `BigInt('0x' + hash)` on a string that passed the regular
expression: digits are read left to right, most significant first. -/
def bigIntOfHex (hash : String) : Nat :=
  hash.data.foldl (fun acc c => acc * 16 + hexDigitValue c) 0

/-- The function `isValidBlock(hash, mainFactor, shareFactor)`.  `hash` is `none` when the
argument is not a string (`null` from the scoring function); a factor is `none`
when `BigInt(...)` of it throws (an absent field). -/
def isValidBlock (hash : Option String) (mainFactor shareFactor : Option Int) :
    Except JsError ValidState :=
  match hash with
  | none => .ok .notValid
  | some h =>
    if !hexRegexTest h then .ok .notValid
    else
      let value : Int := (bigIntOfHex h : Int)
      match mainFactor with
      | none => .error .typeError
      | some mainFactorBigInt =>
        match shareFactor with
        | none => .error .typeError
        | some shareFactorBigInt =>
          if value < mainFactorBigInt then .ok .valid
          else if value < shareFactorBigInt then .ok .share
          else .ok .notValid

/-! ## Data model -/

/-- The object `data = JSON.parse(event.data)` of an inbound message: a JSON
object, each field absent (`none`, `undefined` in the source) or present with
the type the worker expects.  A Task is such an object too: the handler stores
the message itself in `taskData`. -/
structure Data where
  turboMode : Option Bool
  startNonce : Option Int
  endNonce : Option Int
  index : Option Int
  previousHash : Option String
  data : Option String
  mainFactor : Option Int
  shareFactor : Option Int
  minerId : Option String
  deriving DecidableEq, Repr

/-- An entry `{ startNonce, endNonce }` of the array `nonceRanges`. -/
structure NonceRange where
  startNonce : Int
  endNonce : Int
  deriving DecidableEq, Repr

/-- The object built at lines 154-161 (returned) and 164-171 (posted). -/
structure Report where
  state : ValidState
  hash : Option String
  data : Option String
  nonce : Int
  timestamp : Int
  minerId : Option String
  deriving DecidableEq, Repr

/-- What `postMessage` is called with: the string `requestRange` or a
serialised report. -/
inductive Posted where
  | requestRange
  | result (r : Report)
  deriving DecidableEq, Repr

/-- What happens at the worker, in the order it happens: a message is handed to
`onmessage`, or the coroutine calls `postMessage`, `checkThermal` (line 140,
reached in the same stretch as the poll of line 136 that found the flag clear),
`setTimeout` (line 127) or `calculateHashGPU` (line 143). -/
inductive Effect where
  | onmessage (data : Data)
  | postMessage (m : Posted)
  | checkThermal
  | setTimeout
  | calculateHashGPU (task : Data) (nonce timestamp : Int)
  deriving DecidableEq, Repr

/-- The module-level variables (lines 38-50). -/
structure Globals where
  taskData : Option Data
  isProcessing : Bool
  nonceRanges : List NonceRange
  startNonce : Int
  endNonce : Int
  taskDataUpdated : Bool
  hashesProcessed : Nat
  lastMeasurement : Int
  baselineHashRate : Option ℚ
  needsCooldown : Bool
  isTurboMode : Bool
  deriving DecidableEq

/-- Where the coroutine started by `processNonceRanges()` is suspended. -/
inductive Pc where
  /-- Before `processNonceRanges` has been called. -/
  | idle
  /-- Lines 63 and 89: waiting for the one-shot `message` listener to resolve. -/
  | awaitRange
  /-- Line 127: inside `checkThermal`, waiting for the cooldown timer. -/
  | awaitCooldown (task : Option Data) (nonce endNonce : Int)
  /-- Line 140: `checkThermal()` has returned, its promise is awaited. -/
  | awaitThermal (task : Option Data) (nonce endNonce : Int)
  /-- Line 143: `calculateHashGPU` has been called with these arguments. -/
  | awaitHash (task : Data) (nonce endNonce timestamp : Int)
  /-- Line 78: `processNonceRange` has returned `result`, its promise is awaited. -/
  | awaitResult (result : Option Report)
  /-- Line 81: the loop has left through `break`. -/
  | finished
  /-- The promise of `processNonceRanges` was rejected. -/
  | failed (e : JsError)
  deriving DecidableEq

/-- The worker: variables, suspension point, and what has happened so far
(oldest first). -/
structure State where
  g : Globals
  pc : Pc
  log : List Effect
  deriving DecidableEq

/-- What the environment does: delivers a `message` event, or lets the pending
`await` continue.  `now` is what `Date.now()` returns in the stretch of code
the event starts. -/
inductive Event where
  | message (data : Data) (now : Int)
  | resume (now : Int)
  deriving DecidableEq, Repr

def MEASURE_INTERVAL : Int := 2000

def HASH_THRESHOLD : ℚ := 7 / 10

/-- The variables as the script leaves them when it is loaded at time
`loadTime` (lines 38-50). -/
def initialGlobals (loadTime : Int) : Globals :=
  { taskData := none
    isProcessing := false
    nonceRanges := []
    startNonce := 0
    endNonce := 0
    taskDataUpdated := false
    hashesProcessed := 0
    lastMeasurement := loadTime
    baselineHashRate := none
    needsCooldown := false
    isTurboMode := false }

def initialState (loadTime : Int) : State :=
  { g := initialGlobals loadTime, pc := .idle, log := [] }

/-! ## The handler `self.onmessage` (lines 1-36) -/

/-- The handler, up to the call at line 18: the new variables, and whether
`processNonceRanges()` is called. -/
def onmessage (data : Data) (g : Globals) : Globals × Bool :=
  match data.turboMode with
  | some turboMode => ({ g with isTurboMode := turboMode }, false)
  | none =>
    match data.startNonce, data.endNonce with
    | some startNonce, some endNonce =>
      let g := { g with startNonce := startNonce, endNonce := endNonce }
      if !g.isProcessing then
        ({ g with isProcessing := true }, true)
      else
        ({ g with nonceRanges := g.nonceRanges ++ [⟨g.startNonce, g.endNonce⟩] }, false)
    | _, _ =>
      if g.taskData.isSome then
        ({ g with taskDataUpdated := true, taskData := some data }, false)
      else
        ({ g with taskData := some data }, false)

/-- The one-shot listener `handler` of lines 64-72 and 90-98: the new
variables, and whether it removed itself and called `resolve()`. -/
def handler (data : Data) (g : Globals) : Globals × Bool :=
  match data.startNonce, data.endNonce with
  | some startNonce, some endNonce =>
    ({ g with startNonce := startNonce, endNonce := endNonce }, true)
  | _, _ => (g, false)

/-! ## The governor `checkThermal` (lines 106-130) -/

/-- The function `checkThermal()` up to line 126: the new variables, and whether it
suspends on the cooldown timer of line 127 (line 128 runs when the timer
fires, see `step`). -/
def checkThermal (now : Int) (g : Globals) : Globals × Bool :=
  if g.isTurboMode then (g, false)
  else
    let g := { g with hashesProcessed := g.hashesProcessed + 1 }
    let g :=
      if now - g.lastMeasurement ≥ MEASURE_INTERVAL then
        let currentHashRate : ℚ :=
          ((g.hashesProcessed * 1000 : Nat) : ℚ) / ((now - g.lastMeasurement : Int) : ℚ)
        let g :=
          match g.baselineHashRate with
          | none => { g with baselineHashRate := some currentHashRate }
          | some baseline =>
            if baseline = 0 then { g with baselineHashRate := some currentHashRate }
            else
              let performanceRatio := currentHashRate / baseline
              { g with needsCooldown := decide (performanceRatio < HASH_THRESHOLD) }
        { g with hashesProcessed := 0, lastMeasurement := now }
      else g
    (g, g.needsCooldown)

/-! ## The scan `processNonceRange` (lines 132-179) -/

/-- The function `processNonceRange` from the loop test of line 135, with the local
`nonce`, to its next suspension: it returns `null` (line 137 or 178), or calls
the governor and is suspended in it or on it. -/
def processNonceRange (task : Option Data) (nonce endNonce : Int) (now : Int)
    (s : State) : State :=
  if nonce < endNonce then
    if s.g.taskDataUpdated then
      { s with pc := .awaitResult none }
    else
      let (g, cooldown) := checkThermal now s.g
      if cooldown then
        { g := g, pc := .awaitCooldown task nonce endNonce,
          log := s.log ++ [.checkThermal, .setTimeout] }
      else
        { g := g, pc := .awaitThermal task nonce endNonce,
          log := s.log ++ [.checkThermal] }
  else
    { s with pc := .awaitResult none }

/-- Lines 142-150, after `await checkThermal()`: the timestamp is taken and
the scoring function called. -/
def callHash (task : Option Data) (nonce endNonce : Int) (now : Int) (s : State) : State :=
  match task with
  | none => { s with pc := .failed .typeError }
  | some t =>
    let timestamp := now
    { s with pc := .awaitHash t nonce endNonce timestamp,
             log := s.log ++ [.calculateHashGPU t nonce timestamp] }

/-- Lines 152-175, once the scoring function has answered `hash`, and on to the
loop test with `nonce + 1`. -/
def classify (hash : Option String) (task : Data) (nonce endNonce timestamp : Int)
    (now : Int) (s : State) : State :=
  match isValidBlock hash task.mainFactor task.shareFactor with
  | .error e => { s with pc := .failed e }
  | .ok .valid =>
    { s with pc := .awaitResult (some
        { state := .valid, hash := hash, data := task.data, nonce := nonce,
          timestamp := timestamp, minerId := task.minerId }) }
  | .ok .share =>
    processNonceRange (some task) (nonce + 1) endNonce now
      { s with log := s.log ++ [.postMessage (.result
        { state := .share, hash := hash, data := task.data, nonce := nonce,
          timestamp := timestamp, minerId := task.minerId })] }
  | .ok .notValid =>
    processNonceRange (some task) (nonce + 1) endNonce now s

/-! ## The loop `processNonceRanges` (lines 55-104) -/

/-- The function `processNonceRanges` from the top of `while (true)` (line 56). -/
def processNonceRanges (now : Int) (s : State) : State :=
  if s.g.taskDataUpdated then
    { s with
      g := { s.g with nonceRanges := [], startNonce := 0, endNonce := 0,
                      taskDataUpdated := false }
      pc := .awaitRange
      log := s.log ++ [.postMessage .requestRange] }
  else
    processNonceRange s.g.taskData s.g.startNonce s.g.endNonce now s

/-- Lines 79-102, once `processNonceRange` has answered `result`. -/
def afterResult (result : Option Report) (now : Int) (s : State) : State :=
  match result with
  | some r =>
    { s with pc := .finished, log := s.log ++ [.postMessage (.result r)] }
  | none =>
    match s.g.nonceRanges with
    | nextRange :: rest =>
      processNonceRanges now
        { s with g := { s.g with nonceRanges := rest,
                                 startNonce := nextRange.startNonce,
                                 endNonce := nextRange.endNonce } }
    | [] =>
      { s with pc := .awaitRange, log := s.log ++ [.postMessage .requestRange] }

/-! ## The event loop -/

/-- One event.  A message runs `onmessage` and then, if the coroutine waits for
a range, the one-shot listener; `onmessage` was registered first, so it runs
first.  A resumption continues the coroutine from the `await` it is at. -/
def step (score : Data → Int → Int → Option String) (s : State) : Event → State
  | .message data now =>
    let (g, started) := onmessage data s.g
    let s := { s with g := g, log := s.log ++ [.onmessage data] }
    if started then
      processNonceRanges now s
    else
      match s.pc with
      | .awaitRange =>
        let (g, resolved) := handler data s.g
        if resolved then processNonceRanges now { s with g := g }
        else { s with g := g }
      | _ => s
  | .resume now =>
    match s.pc with
    | .awaitCooldown task nonce endNonce =>
      { s with g := { s.g with needsCooldown := false },
               pc := .awaitThermal task nonce endNonce }
    | .awaitThermal task nonce endNonce => callHash task nonce endNonce now s
    | .awaitHash task nonce endNonce timestamp =>
      classify (score task nonce timestamp) task nonce endNonce timestamp now s
    | .awaitResult result => afterResult result now s
    | _ => s

/-- The worker after a sequence of events. -/
def run (score : Data → Int → Int → Option String) (s : State) (events : List Event) :
    State :=
  events.foldl (step score) s

/-! ## Observations on a log -/

/-- The calls of the scoring function recorded in a log, in order. -/
def scoreCalls (log : List Effect) : List (Data × Int × Int) :=
  log.filterMap fun e =>
    match e with
    | .calculateHashGPU task nonce timestamp => some (task, nonce, timestamp)
    | _ => none

/-- The arguments of the calls of `postMessage` recorded in a log, in order. -/
def posted (log : List Effect) : List Posted :=
  log.filterMap fun e =>
    match e with
    | .postMessage m => some m
    | _ => none

/-- The messages that `onmessage` routes to its last branch (lines 23-35): no
`turboMode`, and not both of `startNonce` and `endNonce`. -/
def isTaskDefinition (d : Data) : Bool :=
  d.turboMode.isNone && !(d.startNonce.isSome && d.endNonce.isSome)

/-- The classification of a nonce scored with `task` at `timestamp`. -/
def verdict (score : Data → Int → Int → Option String) (task : Data)
    (nonce timestamp : Int) : Except JsError ValidState :=
  isValidBlock (score task nonce timestamp) task.mainFactor task.shareFactor

/-- The report object of lines 154-161 and 164-171 for a nonce scored with
`task` at `timestamp`. -/
def reportOf (score : Data → Int → Int → Option String) (state : ValidState) (task : Data)
    (nonce timestamp : Int) : Report :=
  { state := state, hash := score task nonce timestamp, data := task.data, nonce := nonce,
    timestamp := timestamp, minerId := task.minerId }

/-- The suspension points inside `processNonceRange`. -/
def inScan : Pc → Bool
  | .awaitCooldown _ _ _ => true
  | .awaitThermal _ _ _ => true
  | .awaitHash _ _ _ _ => true
  | _ => false

/-- Resumes the coroutine if it is inside `processNonceRange`, and leaves it
alone once `processNonceRange` has returned. -/
def scanStep (score : Data → Int → Int → Option String) (s : State) (now : Int) : State :=
  if inScan s.pc then step score s (.resume now) else s

/-- A scan during which no message arrives: the pending `await`s are resumed
one after the other, with the clock readings `clocks`, until `processNonceRange`
returns. -/
def resumeScan (score : Data → Int → Int → Option String) (s : State) (clocks : List Int) :
    State :=
  clocks.foldl (scanStep score) s

/-- The variables that only the handler and `processNonceRanges` write agree in
`g` and `g'`: everything but the state of the governor. -/
def SameScanVars (g g' : Globals) : Prop :=
  g'.taskData = g.taskData ∧ g'.isProcessing = g.isProcessing ∧
  g'.nonceRanges = g.nonceRanges ∧ g'.startNonce = g.startNonce ∧
  g'.endNonce = g.endNonce ∧ g'.taskDataUpdated = g.taskDataUpdated ∧
  g'.isTurboMode = g.isTurboMode

/-- A Task `{mainFactor: 10, shareFactor: 1000}`. -/
def scenarioTask : Data :=
  { turboMode := none, startNonce := none, endNonce := none, index := some 7,
    previousHash := some "00ab", data := some "payload", mainFactor := some 10,
    shareFactor := some 1000, minerId := some "w1" }

/-- A later definition of the Task, with other thresholds. -/
def scenarioTask2 : Data :=
  { scenarioTask with index := some 8, mainFactor := some 20, shareFactor := some 2000 }

/-- A range push `{startNonce, endNonce}`. -/
def rangeMessage (startNonce endNonce : Int) : Data :=
  { turboMode := none, startNonce := some startNonce, endNonce := some endNonce,
    index := none, previousHash := none, data := none, mainFactor := none,
    shareFactor := none, minerId := none }

/-- A scoring stub with the values 2000, 500, 2000, 2000, 2000 for the nonces 0
to 4 (and 2000 elsewhere), as hexadecimal digests. -/
def scenarioScoreShare : Data → Int → Int → Option String := fun _ nonce _ =>
  if nonce = 1 then some "1f4" else some "7d0"

/-- A run in which the Task is replaced while nonce 0 of the range 0 to 3 is being
scored and nothing is queued, up to the resumption after the aborted scan. -/
def replacementWhileScoring : List Event :=
  [.message scenarioTask 0, .message (rangeMessage 0 3) 1, .resume 2,
   .message scenarioTask2 3, .resume 4, .resume 5]

/-- A run in which the Task is replaced during a cooldown and nothing is queued,
up to the resumption after the aborted scan.  The script is loaded at time 0;
the first call of the governor, at 2000, records the baseline 1/2 per second;
the second, at 10000, measures 1/8 per second and starts the timer; the new
definition arrives while the timer runs. -/
def replacementWhileCooling : List Event :=
  [.message scenarioTask 0, .message (rangeMessage 0 3) 2000, .resume 2001, .resume 10000,
   .message scenarioTask2 10500, .resume 11000, .resume 11001, .resume 11002, .resume 11003]

/-! ## Observations on the governor -/

/-- The rate that line 113 computes at a call of `checkThermal` at time `now`:
samples per second since the window started, the current call counted. -/
def currentRate (now : Int) (g : Globals) : ℚ :=
  (((g.hashesProcessed + 1) * 1000 : Nat) : ℚ) / ((now - g.lastMeasurement : Int) : ℚ)

/-- The number of cooldown timers started in a log. -/
def timersStarted (log : List Effect) : Nat :=
  log.count .setTimeout

/-! ## Invariant of the governor -/

/-- The invariant of the governor: a recorded baseline is positive; a cooldown
is pending exactly while the coroutine waits for the timer of line 127; and the
loop is only ever started once. -/
def GovernorInv (s : State) : Prop :=
  (∀ b, s.g.baselineHashRate = some b → 0 < b) ∧
  (s.g.needsCooldown = true ↔ ∃ t n e, s.pc = .awaitCooldown t n e) ∧
  (s.g.isProcessing = false → s.pc = .idle)

/-- The number of events of a run from `s` in which a cooldown becomes pending
(`needsCooldown` goes from false to true). -/
def cooldownsSet (score : Data → Int → Int → Option String) (s : State) : List Event → Nat
  | [] => 0
  | e :: events =>
    (if s.g.needsCooldown = false ∧ (step score s e).g.needsCooldown = true then 1 else 0) +
      cooldownsSet score (step score s e) events

/-! ## Further scenarios -/

/-- The conversion of `isValidBlock` reads the string as a base-16 numeral. -/
theorem bigIntOfHex_eq_ofDigits (hash : String) :
    bigIntOfHex hash = Nat.ofDigits 16 (hash.data.reverse.map hexDigitValue) := by
  unfold bigIntOfHex
  rw [Nat.ofDigits_eq_foldr, List.foldr_map, List.foldr_reverse]
  congr 1
  funext acc c
  simp [mul_comm]; ring

/-- The value of each of the twenty-two hexadecimal digits. -/
theorem hexDigitValue_table :
    "0123456789abcdefABCDEF".data.map hexDigitValue =
      [0, 1, 2, 3, 4, 5, 6, 7, 8, 9, 10, 11, 12, 13, 14, 15, 10, 11, 12, 13, 14, 15] := by
  decide

/-- C1: for a non-empty string of hexadecimal digits whose base-16 value is `v`, and
integer factors in any order, `isValidBlock` answers `valid` iff `v < mainFactor`,
`share` iff `mainFactor ≤ v < shareFactor`, `notValid` otherwise; when
`shareFactor ≤ mainFactor` it never answers `share`. -/
theorem isValidBlock_threshold (hash : String) (mainFactor shareFactor : Int) (v : Nat)
    (hhex : hash.data ≠ [] ∧ ∀ c ∈ hash.data, c ∈ "0123456789abcdefABCDEF".data)
    (hv : v = Nat.ofDigits 16 (hash.data.reverse.map hexDigitValue)) :
    (isValidBlock (some hash) (some mainFactor) (some shareFactor) = .ok .valid ↔
        (v : Int) < mainFactor) ∧
    (isValidBlock (some hash) (some mainFactor) (some shareFactor) = .ok .share ↔
        mainFactor ≤ (v : Int) ∧ (v : Int) < shareFactor) ∧
    (isValidBlock (some hash) (some mainFactor) (some shareFactor) = .ok .notValid ↔
        ¬ (v : Int) < mainFactor ∧ ¬ (mainFactor ≤ (v : Int) ∧ (v : Int) < shareFactor)) ∧
    (shareFactor ≤ mainFactor →
        isValidBlock (some hash) (some mainFactor) (some shareFactor) ≠ .ok .share) := by
  have htab : ∀ c ∈ "0123456789abcdefABCDEF".data, isHexDigit c = true := by decide
  have hre : hexRegexTest hash = true := by
    simp only [hexRegexTest, Bool.and_eq_true, Bool.not_eq_true', List.isEmpty_eq_false,
      List.all_eq_true]
    exact ⟨hhex.1, fun c hc => htab c (hhex.2 c hc)⟩
  rw [← bigIntOfHex_eq_ofDigits] at hv
  subst hv
  simp only [isValidBlock, hre, Bool.not_true, Bool.false_eq_true, if_false]
  by_cases h1 : (bigIntOfHex hash : Int) < mainFactor
  · simp [h1]
  · by_cases h2 : (bigIntOfHex hash : Int) < shareFactor
    · simp [h1, h2]
      omega
    · simp [h1, h2]

/-- C1 at the digest `3e7` (999) with factors 10 and 1000. -/
theorem isValidBlock_threshold_witness :
    ("3e7".data ≠ [] ∧ ∀ c ∈ "3e7".data, c ∈ "0123456789abcdefABCDEF".data) ∧
    999 = Nat.ofDigits 16 ("3e7".data.reverse.map hexDigitValue) ∧
    (isValidBlock (some "3e7") (some 10) (some 1000) = .ok .share ↔
        (10 : Int) ≤ (999 : Nat) ∧ ((999 : Nat) : Int) < 1000) :=
  ⟨by decide, by decide,
    (isValidBlock_threshold "3e7" 10 1000 999 (by decide) (by decide)).2.1⟩

/-! ## The governor leaves the scan variables alone -/

/-- The governor writes its own variables only. -/
theorem checkThermal_frame (now : Int) (g : Globals) :
    (checkThermal now g).1.taskData = g.taskData ∧
    (checkThermal now g).1.isProcessing = g.isProcessing ∧
    (checkThermal now g).1.nonceRanges = g.nonceRanges ∧
    (checkThermal now g).1.startNonce = g.startNonce ∧
    (checkThermal now g).1.endNonce = g.endNonce ∧
    (checkThermal now g).1.taskDataUpdated = g.taskDataUpdated ∧
    (checkThermal now g).1.isTurboMode = g.isTurboMode := by
  unfold checkThermal
  by_cases ht : g.isTurboMode = true
  · simp [ht]
  · by_cases hm : now - g.lastMeasurement ≥ MEASURE_INTERVAL
    · cases hb : g.baselineHashRate with
      | none => simp [ht, hm, hb]
      | some b => by_cases h0 : b = 0 <;> simp [ht, hm, hb, h0]
    · simp [ht, hm]

/-- Once `processNonceRange` has returned, resuming the scan does nothing. -/
theorem resumeScan_of_not_inScan (score : Data → Int → Int → Option String) (s : State)
    (h : inScan s.pc = false) (clocks : List Int) : resumeScan score s clocks = s := by
  induction clocks with
  | nil => rfl
  | cons now clocks ih =>
    simp only [resumeScan, List.foldl_cons, scanStep, h, Bool.false_eq_true, if_false]
    exact ih

/-- C4: the flag is polled at the head of every iteration.  If it is set when an
iteration begins, `processNonceRange` returns `null` and changes nothing else: no
governor call, no scoring call, no report, for this nonce or a later one.  This
holds in the middle of a range too: when the flag was set while nonce `n` was
being scored and `n` is not Valid, the next iteration is not entered. -/
theorem processNonceRange_polls_flag (score : Data → Int → Int → Option String) (s : State)
    (hflag : s.g.taskDataUpdated = true) :
    (∀ task nonce endNonce now,
      processNonceRange task nonce endNonce now s = { s with pc := .awaitResult none } ∧
      ∀ clocks, resumeScan score (processNonceRange task nonce endNonce now s) clocks =
        { s with pc := .awaitResult none }) ∧
    (∀ task nonce endNonce timestamp now, s.pc = .awaitHash task nonce endNonce timestamp →
      (verdict score task nonce timestamp = .ok .notValid →
        step score s (.resume now) = { s with pc := .awaitResult none }) ∧
      (verdict score task nonce timestamp = .ok .share →
        step score s (.resume now) =
          { s with pc := .awaitResult none,
                   log := s.log ++ [.postMessage (.result
                     (reportOf score .share task nonce timestamp))] })) := by
  have h1 : ∀ (task : Option Data) (nonce endNonce now : Int) (t : State),
      t.g.taskDataUpdated = true →
      processNonceRange task nonce endNonce now t = { t with pc := .awaitResult none } := by
    intro task nonce endNonce now t ht
    unfold processNonceRange
    split_ifs <;> rfl
  refine ⟨fun task nonce endNonce now => ⟨h1 _ _ _ _ s hflag, fun clocks => ?_⟩, ?_⟩
  · rw [h1 _ _ _ _ s hflag]
    exact resumeScan_of_not_inScan score { s with pc := .awaitResult none } rfl clocks
  · intro task nonce endNonce timestamp now hpc
    constructor
    · intro hv
      simp only [step, hpc, classify]
      simp only [verdict] at hv
      rw [hv]
      simp only
      rw [h1 _ _ _ _ s hflag]
    · intro hv
      simp only [step, hpc, classify]
      simp only [verdict] at hv
      rw [hv]
      simp only
      rw [h1 _ _ _ _ _ (by exact hflag)]
      rfl

/-- C4 in a run where the Task is replaced while nonce 0 is being scored. -/
theorem processNonceRange_polls_flag_witness :
    (run scenarioScoreShare (initialState 0)
      [.message scenarioTask 0, .message (rangeMessage 0 5) 1, .resume 2,
       .message scenarioTask2 3]).g.taskDataUpdated = true ∧
    (run scenarioScoreShare (initialState 0)
      [.message scenarioTask 0, .message (rangeMessage 0 5) 1, .resume 2,
       .message scenarioTask2 3, .resume 4]).pc = .awaitResult none ∧
    processNonceRange (some scenarioTask) 1 5 4
        (run scenarioScoreShare (initialState 0)
          [.message scenarioTask 0, .message (rangeMessage 0 5) 1, .resume 2,
           .message scenarioTask2 3]) =
      { run scenarioScoreShare (initialState 0)
          [.message scenarioTask 0, .message (rangeMessage 0 5) 1, .resume 2,
           .message scenarioTask2 3] with pc := .awaitResult none } :=
  ⟨by decide, by decide,
    ((processNonceRange_polls_flag scenarioScoreShare _ (by decide)).1
      (some scenarioTask) 1 5 4).1⟩

/-! ## Replacement at the top of the loop -/

/-- C5: when `processNonceRanges` finds the flag set at the top of its loop, the queue
is emptied, the bounds are reset to 0 and 0, the flag is cleared and one
`requestRange` is posted, in a state that no longer depends on the queue or on
the bounds; nothing is scored; and the same happens to the range that resumes a
suspended loop when the flag is set. -/
theorem processNonceRanges_replacement (score : Data → Int → Int → Option String)
    (now : Int) (s : State) (hflag : s.g.taskDataUpdated = true) :
    (processNonceRanges now s).g.nonceRanges = [] ∧
    (processNonceRanges now s).g.startNonce = 0 ∧
    (processNonceRanges now s).g.endNonce = 0 ∧
    (processNonceRanges now s).g.taskDataUpdated = false ∧
    (processNonceRanges now s).pc = .awaitRange ∧
    (processNonceRanges now s).log = s.log ++ [.postMessage .requestRange] ∧
    scoreCalls (processNonceRanges now s).log = scoreCalls s.log ∧
    (∀ queue startNonce endNonce,
      processNonceRanges now
          { s with g := { s.g with nonceRanges := queue, startNonce := startNonce,
                                   endNonce := endNonce } } =
        processNonceRanges now s) ∧
    (∀ d a b, s.pc = .awaitRange → d.startNonce = some a → d.endNonce = some b →
      (step score s (.message d now)).g.nonceRanges = [] ∧
      (step score s (.message d now)).g.startNonce = 0 ∧
      (step score s (.message d now)).g.endNonce = 0 ∧
      (step score s (.message d now)).g.taskDataUpdated = false ∧
      (step score s (.message d now)).pc = .awaitRange ∧
      (step score s (.message d now)).log =
        s.log ++ [.onmessage d, .postMessage .requestRange]) := by
  have h : ∀ t : State, t.g.taskDataUpdated = true →
      processNonceRanges now t =
        { g := { t.g with nonceRanges := [], startNonce := 0, endNonce := 0,
                          taskDataUpdated := false },
          pc := .awaitRange, log := t.log ++ [.postMessage .requestRange] } := by
    intro t ht
    simp [processNonceRanges, ht]
  refine ⟨?_, ?_, ?_, ?_, ?_, ?_, ?_, ?_, ?_⟩
  · rw [h s hflag]
  · rw [h s hflag]
  · rw [h s hflag]
  · rw [h s hflag]
  · rw [h s hflag]
  · rw [h s hflag]
  · rw [h s hflag]
    simp [scoreCalls, List.filterMap_append]
  · intro queue startNonce endNonce
    rw [h s hflag, h _ (by exact hflag)]
  · intro d a b hpc ha hb
    cases ht : d.turboMode with
    | some t =>
      simp [step, onmessage, handler, ht, ha, hb, hpc, processNonceRanges, hflag]
    | none =>
      cases hp : s.g.isProcessing with
      | false =>
        simp [step, onmessage, handler, ht, ha, hb, hpc, processNonceRanges, hflag, hp]
      | true =>
        simp [step, onmessage, handler, ht, ha, hb, hpc, processNonceRanges, hflag, hp]

/-- C5 in a run where the Task is replaced during a scan with two ranges queued. -/
theorem processNonceRanges_replacement_witness :
    (run scenarioScoreShare (initialState 0)
      [.message scenarioTask 0, .message (rangeMessage 0 1) 1, .message (rangeMessage 1 9) 2,
       .message (rangeMessage 9 20) 3, .message scenarioTask2 4, .resume 5,
       .resume 6]).g.taskDataUpdated = true ∧
    (processNonceRanges 7 (run scenarioScoreShare (initialState 0)
      [.message scenarioTask 0, .message (rangeMessage 0 1) 1, .message (rangeMessage 1 9) 2,
       .message (rangeMessage 9 20) 3, .message scenarioTask2 4, .resume 5,
       .resume 6])).g.nonceRanges = [] :=
  ⟨by decide,
    (processNonceRanges_replacement scenarioScoreShare 7 _ (by decide)).1⟩

/-! ## The scan, step by step -/

theorem scoreCalls_append (L M : List Effect) :
    scoreCalls (L ++ M) = scoreCalls L ++ scoreCalls M := by
  simp [scoreCalls, List.filterMap_append]

theorem posted_append (L M : List Effect) : posted (L ++ M) = posted L ++ posted M := by
  simp [posted, List.filterMap_append]

theorem SameScanVars.rfl (g : Globals) : SameScanVars g g :=
  ⟨Eq.refl _, Eq.refl _, Eq.refl _, Eq.refl _, Eq.refl _, Eq.refl _, Eq.refl _⟩

theorem SameScanVars.trans {g g' g'' : Globals} (h : SameScanVars g g')
    (h' : SameScanVars g' g'') : SameScanVars g g'' := by
  obtain ⟨a1, a2, a3, a4, a5, a6, a7⟩ := h
  obtain ⟨b1, b2, b3, b4, b5, b6, b7⟩ := h'
  exact ⟨b1.trans a1, b2.trans a2, b3.trans a3, b4.trans a4, b5.trans a5, b6.trans a6,
    b7.trans a7⟩

/-- The delivery of a message, with the two handlers spelled out. -/
theorem step_message_eq (score : Data → Int → Int → Option String) (s : State) (d : Data)
    (now : Int) :
    step score s (.message d now) =
      if (onmessage d s.g).2 = true then
        processNonceRanges now
          { s with g := (onmessage d s.g).1, log := s.log ++ [.onmessage d] }
      else if s.pc = .awaitRange then
        if (handler d (onmessage d s.g).1).2 = true then
          processNonceRanges now
            { s with g := (handler d (onmessage d s.g).1).1, log := s.log ++ [.onmessage d] }
        else
          { s with g := (handler d (onmessage d s.g).1).1, log := s.log ++ [.onmessage d] }
      else
        { s with g := (onmessage d s.g).1, log := s.log ++ [.onmessage d] } := by
  rcases hom : onmessage d s.g with ⟨g1, started⟩
  rcases hh : handler d g1 with ⟨g2, resolved⟩
  cases hp : s.pc <;> cases started <;> cases resolved <;> simp [step, hom, hh, hp]

/-- The worker when the cooldown timer of `replacementWhileCooling` starts. -/
theorem replacementWhileCooling_timer :
    run scenarioScoreShare (initialState 0) (replacementWhileCooling.take 4) =
    { g := { taskData := some scenarioTask, isProcessing := true, nonceRanges := [],
             startNonce := 0, endNonce := 3, taskDataUpdated := false, hashesProcessed := 0,
             lastMeasurement := 10000, baselineHashRate := some (1 / 2), needsCooldown := true,
             isTurboMode := false }
      pc := .awaitCooldown (some scenarioTask) 1 3
      log := [.onmessage scenarioTask, .onmessage (rangeMessage 0 3), .checkThermal,
              .calculateHashGPU scenarioTask 0 2001, .checkThermal, .setTimeout] } := by
  have hv : isValidBlock (some "7d0") (some 10) (some 1000) = .ok .notValid := rfl
  simp [replacementWhileCooling, run, step, onmessage, processNonceRanges, processNonceRange,
    checkThermal, callHash, classify, initialState, initialGlobals, scenarioTask, rangeMessage,
    scenarioScoreShare, MEASURE_INTERVAL, HASH_THRESHOLD, hv]
  norm_num

/-- C7 (the code departs from it): a Task of thresholds 10 and 1000 and the range 0 to 3
are delivered, the Task is replaced during the scan, and the queue is empty.  The
aborted scan returns `null`; the loop then posts `requestRange` and waits for a
range with the flag still set and nothing reset.  The range 3 to 6 that answers
the request is thrown away by the reset that follows (bounds 0 and 0, empty
queue), a second `requestRange` is posted, and no nonce of 3 to 6 is scored.
This happens when the new definition arrives while nonce 0 is being scored, and
when it arrives during a cooldown. -/
theorem request_before_replacement :
    ((run scenarioScoreShare (initialState 0) (replacementWhileScoring.take 5)).pc =
        .awaitResult none ∧
      (run scenarioScoreShare (initialState 0) replacementWhileScoring).pc = .awaitRange ∧
      (run scenarioScoreShare (initialState 0) replacementWhileScoring).g.taskDataUpdated
        = true ∧
      (run scenarioScoreShare (initialState 0) replacementWhileScoring).g.endNonce = 3 ∧
      (run scenarioScoreShare (initialState 0) replacementWhileScoring).log =
        [.onmessage scenarioTask, .onmessage (rangeMessage 0 3), .checkThermal,
         .calculateHashGPU scenarioTask 0 2, .onmessage scenarioTask2,
         .postMessage .requestRange] ∧
      (run scenarioScoreShare (initialState 0)
        (replacementWhileScoring ++ [.message (rangeMessage 3 6) 6])).log =
        [.onmessage scenarioTask, .onmessage (rangeMessage 0 3), .checkThermal,
         .calculateHashGPU scenarioTask 0 2, .onmessage scenarioTask2,
         .postMessage .requestRange, .onmessage (rangeMessage 3 6),
         .postMessage .requestRange] ∧
      (run scenarioScoreShare (initialState 0)
        (replacementWhileScoring ++ [.message (rangeMessage 3 6) 6])).pc = .awaitRange ∧
      (run scenarioScoreShare (initialState 0)
        (replacementWhileScoring ++ [.message (rangeMessage 3 6) 6])).g.nonceRanges = [] ∧
      (run scenarioScoreShare (initialState 0)
        (replacementWhileScoring ++ [.message (rangeMessage 3 6) 6])).g.startNonce = 0 ∧
      (run scenarioScoreShare (initialState 0)
        (replacementWhileScoring ++ [.message (rangeMessage 3 6) 6])).g.endNonce = 0) ∧
    ((run scenarioScoreShare (initialState 0) replacementWhileCooling).pc = .awaitRange ∧
      (run scenarioScoreShare (initialState 0) replacementWhileCooling).g.taskDataUpdated
        = true ∧
      (run scenarioScoreShare (initialState 0) replacementWhileCooling).log =
        [.onmessage scenarioTask, .onmessage (rangeMessage 0 3), .checkThermal,
         .calculateHashGPU scenarioTask 0 2001, .checkThermal, .setTimeout,
         .onmessage scenarioTask2, .calculateHashGPU scenarioTask 1 11001,
         .postMessage (.result { state := .share, hash := some "1f4", data := some "payload",
                                 nonce := 1, timestamp := 11001, minerId := some "w1" }),
         .postMessage .requestRange] ∧
      posted (run scenarioScoreShare (initialState 0)
        (replacementWhileCooling ++ [.message (rangeMessage 3 6) 11004])).log =
        [.result { state := .share, hash := some "1f4", data := some "payload",
                   nonce := 1, timestamp := 11001, minerId := some "w1" },
         .requestRange, .requestRange] ∧
      (run scenarioScoreShare (initialState 0)
        (replacementWhileCooling ++ [.message (rangeMessage 3 6) 11004])).pc = .awaitRange ∧
      (run scenarioScoreShare (initialState 0)
        (replacementWhileCooling ++ [.message (rangeMessage 3 6) 11004])).g.nonceRanges = [] ∧
      (run scenarioScoreShare (initialState 0)
        (replacementWhileCooling ++ [.message (rangeMessage 3 6) 11004])).g.endNonce = 0) := by
  have h1 : run scenarioScoreShare (initialState 0) replacementWhileCooling =
      run scenarioScoreShare
        (run scenarioScoreShare (initialState 0) (replacementWhileCooling.take 4))
        (replacementWhileCooling.drop 4) := rfl
  have h2 : run scenarioScoreShare (initialState 0)
        (replacementWhileCooling ++ [.message (rangeMessage 3 6) 11004]) =
      run scenarioScoreShare
        (run scenarioScoreShare (initialState 0) (replacementWhileCooling.take 4))
        (replacementWhileCooling.drop 4 ++ [.message (rangeMessage 3 6) 11004]) := rfl
  rw [h1, h2, replacementWhileCooling_timer]
  decide

/-! ## A range that answers a request -/

/-- C9 (the code departs from it): the range 0 to 1 is scanned and exhausted, the loop
posts `requestRange` and waits.  The range 1 to 3 that answers it becomes the
active range and is appended to the queue too, by `onmessage`.  With no further
message the nonces 1 and 2 are scored, the queued copy is taken, and the nonces
1 and 2 are scored a second time; the `share` report of nonce 1 is posted
twice. -/
theorem answered_range_scanned_twice :
    (run scenarioScoreShare (initialState 0)
      [.message scenarioTask 0, .message (rangeMessage 0 1) 1, .resume 2, .resume 3,
       .resume 4]).pc = .awaitRange ∧
    (run scenarioScoreShare (initialState 0)
      [.message scenarioTask 0, .message (rangeMessage 0 1) 1, .resume 2, .resume 3,
       .resume 4]).g.nonceRanges = [] ∧
    (run scenarioScoreShare (initialState 0)
      [.message scenarioTask 0, .message (rangeMessage 0 1) 1, .resume 2, .resume 3,
       .resume 4, .message (rangeMessage 1 3) 5]).pc = .awaitThermal (some scenarioTask) 1 3 ∧
    (run scenarioScoreShare (initialState 0)
      [.message scenarioTask 0, .message (rangeMessage 0 1) 1, .resume 2, .resume 3,
       .resume 4, .message (rangeMessage 1 3) 5]).g.nonceRanges = [⟨1, 3⟩] ∧
    (scoreCalls (run scenarioScoreShare (initialState 0)
      [.message scenarioTask 0, .message (rangeMessage 0 1) 1, .resume 2, .resume 3,
       .resume 4, .message (rangeMessage 1 3) 5, .resume 6, .resume 7, .resume 8, .resume 9,
       .resume 10, .resume 11, .resume 12, .resume 13, .resume 14, .resume 15]).log).map
        (fun c => c.2.1) = [0, 1, 2, 1, 2] ∧
    posted (run scenarioScoreShare (initialState 0)
      [.message scenarioTask 0, .message (rangeMessage 0 1) 1, .resume 2, .resume 3,
       .resume 4, .message (rangeMessage 1 3) 5, .resume 6, .resume 7, .resume 8, .resume 9,
       .resume 10, .resume 11, .resume 12, .resume 13, .resume 14, .resume 15]).log =
      [.requestRange,
       .result { state := .share, hash := some "1f4", data := some "payload", nonce := 1,
                 timestamp := 6, minerId := some "w1" },
       .result { state := .share, hash := some "1f4", data := some "payload", nonce := 1,
                 timestamp := 11, minerId := some "w1" },
       .requestRange] := by
  decide

/-! ## Working through the queue -/

theorem handler_not_range (x : Data) (g : Globals)
    (hx : x.startNonce = none ∨ x.endNonce = none) : handler x g = (g, false) := by
  unfold handler
  rcases hx with hx | hx
  · rw [hx]
  · rw [hx]
    cases x.startNonce <;> rfl

theorem onmessage_other (x : Data) (g : Globals)
    (hx : x.startNonce = none ∨ x.endNonce = none) :
    (onmessage x g).2 = false ∧ (onmessage x g).1.nonceRanges = g.nonceRanges ∧
    (onmessage x g).1.isProcessing = g.isProcessing ∧
    (isTaskDefinition x = false →
      (onmessage x g).1.taskData = g.taskData ∧
      (onmessage x g).1.taskDataUpdated = g.taskDataUpdated) := by
  unfold onmessage isTaskDefinition
  rcases hx with hx | hx <;> rw [hx] <;> cases x.turboMode <;> cases x.startNonce <;>
    cases x.endNonce <;> cases g.taskData <;> simp

theorem isHexDigit_iff (c : Char) :
    isHexDigit c = true ↔ c ∈ "0123456789abcdefABCDEF".data := by
  constructor
  · intro h
    have hc : Char.ofNat c.toNat = c := Char.ofNat_toNat c
    simp only [isHexDigit, decide_eq_true_eq, Char.le_def, Nat.le_eq] at h
    have h' : (48 ≤ c.toNat ∧ c.toNat ≤ 57) ∨ (97 ≤ c.toNat ∧ c.toNat ≤ 102) ∨
        (65 ≤ c.toNat ∧ c.toNat ≤ 70) := h
    rw [← hc]
    rcases h' with ⟨h1, h2⟩ | ⟨h1, h2⟩ | ⟨h1, h2⟩ <;> interval_cases c.toNat <;> decide
  · intro h
    have htab : ∀ c ∈ "0123456789abcdefABCDEF".data, isHexDigit c = true := by decide
    exact htab c h

theorem hexRegexTest_iff (h : String) :
    hexRegexTest h = true ↔
      h.data ≠ [] ∧ ∀ c ∈ h.data, c ∈ "0123456789abcdefABCDEF".data := by
  simp only [hexRegexTest, Bool.and_eq_true, Bool.not_eq_true', List.isEmpty_eq_false,
    List.all_eq_true, isHexDigit_iff]

/-- The loop test and the governor post nothing and score nothing. -/
theorem processNonceRange_quiet (task : Option Data) (nonce endNonce now : Int) (s : State) :
    posted (processNonceRange task nonce endNonce now s).log = posted s.log ∧
    scoreCalls (processNonceRange task nonce endNonce now s).log = scoreCalls s.log := by
  unfold processNonceRange
  by_cases hlt : nonce < endNonce
  · by_cases hf : s.g.taskDataUpdated = true
    · simp [hlt, hf]
    · rcases hct : checkThermal now s.g with ⟨g', cd⟩
      cases cd <;> simp [hlt, hf, posted, scoreCalls, List.filterMap_append]
  · simp [hlt]

/-- The suspension point after the loop test, when the range is not exhausted
and the flag is clear: in the governor or on it, with the same nonce. -/
theorem processNonceRange_enters (task : Option Data) (nonce endNonce now : Int) (s : State)
    (hlt : nonce < endNonce) (hf : s.g.taskDataUpdated = false) :
    (processNonceRange task nonce endNonce now s).pc = .awaitCooldown task nonce endNonce ∨
    (processNonceRange task nonce endNonce now s).pc = .awaitThermal task nonce endNonce := by
  unfold processNonceRange
  rcases hct : checkThermal now s.g with ⟨g', cd⟩
  cases cd <;> simp [hlt, hf]

/-- C11: a scoring output that is not a non-empty string of hexadecimal digits (`null`,
the empty string, a string with a character that is no hexadecimal digit) is
classified `notValid` without an exception, whatever the factors, absent ones
included; and when such an output answers the scoring call of a nonce, the loop
posts nothing for it and goes on to the loop test with the next nonce: it is
suspended in the next iteration when the range is not exhausted and the flag
is clear, and never fails. -/
theorem malformed_digest_notValid (score : Data → Int → Int → Option String)
    (hash : Option String)
    (hbad : ∀ h, hash = some h →
      h.data = [] ∨ ∃ c ∈ h.data, c ∉ "0123456789abcdefABCDEF".data) :
    (∀ mainFactor shareFactor : Option Int,
      isValidBlock hash mainFactor shareFactor = .ok .notValid) ∧
    (∀ (s : State) task nonce endNonce timestamp now,
      s.pc = .awaitHash task nonce endNonce timestamp → score task nonce timestamp = hash →
      step score s (.resume now) = processNonceRange (some task) (nonce + 1) endNonce now s ∧
      posted (step score s (.resume now)).log = posted s.log ∧
      scoreCalls (step score s (.resume now)).log = scoreCalls s.log ∧
      (nonce + 1 < endNonce → s.g.taskDataUpdated = false →
        (step score s (.resume now)).pc = .awaitCooldown (some task) (nonce + 1) endNonce ∨
        (step score s (.resume now)).pc = .awaitThermal (some task) (nonce + 1) endNonce)) := by
  have h1 : ∀ mainFactor shareFactor : Option Int,
      isValidBlock hash mainFactor shareFactor = .ok .notValid := by
    intro mainFactor shareFactor
    cases hh : hash with
    | none => rfl
    | some h =>
      have hre : hexRegexTest h = false := by
        cases hr : hexRegexTest h with
        | false => rfl
        | true =>
          exfalso
          obtain ⟨hne, hall⟩ := (hexRegexTest_iff h).mp hr
          rcases hbad h hh with he | ⟨c, hc, hnc⟩
          · exact hne he
          · exact hnc (hall c hc)
      simp [isValidBlock, hre]
  refine ⟨h1, ?_⟩
  intro s task nonce endNonce timestamp now hpc hsc
  have hs : step score s (.resume now) =
      processNonceRange (some task) (nonce + 1) endNonce now s := by
    simp only [step, hpc, classify, hsc, h1]
  rw [hs]
  exact ⟨rfl, (processNonceRange_quiet _ _ _ _ s).1, (processNonceRange_quiet _ _ _ _ s).2,
    fun hlt hf => processNonceRange_enters _ _ _ _ s hlt hf⟩

/-- C11 at the digest `12g4`, with factors absent. -/
theorem malformed_digest_notValid_witness :
    (∀ h, some "12g4" = some h →
      h.data = [] ∨ ∃ c ∈ h.data, c ∉ "0123456789abcdefABCDEF".data) ∧
    isValidBlock (some "12g4") none none = .ok .notValid :=
  ⟨fun h hh => by
      injection hh with hh
      subst hh
      exact Or.inr ⟨'g', by decide, by decide⟩,
    (malformed_digest_notValid (fun _ _ _ => none) (some "12g4") (fun h hh => by
      injection hh with hh
      subst hh
      exact Or.inr ⟨'g', by decide, by decide⟩)).1 none none⟩

/-! ## The governor -/

/-- C12: with turbo on, a call of `checkThermal` changes no variable (sample count, window
start, baseline, pending cooldown, nor any other) and does not suspend, whatever
the clock reading and the state of the governor; an iteration of the scan then
goes from the poll to the `await` of line 140 with the variables unchanged, and
starts no timer. -/
theorem checkThermal_turbo_bypass (now : Int) (g : Globals) (ht : g.isTurboMode = true) :
    checkThermal now g = (g, false) ∧
    ∀ (s : State) task nonce endNonce, s.g = g → nonce < endNonce →
      g.taskDataUpdated = false →
      processNonceRange task nonce endNonce now s =
        { s with pc := .awaitThermal task nonce endNonce, log := s.log ++ [.checkThermal] } := by
  have h : checkThermal now g = (g, false) := by simp [checkThermal, ht]
  refine ⟨h, ?_⟩
  intro s task nonce endNonce hs hlt hf
  subst hs
  simp [processNonceRange, hlt, hf, h]

/-- C12 in a state with a baseline of 1000 per second, an elapsed window with one sample
and a pending cooldown. -/
theorem checkThermal_turbo_bypass_witness :
    ({ initialGlobals 0 with isTurboMode := true, baselineHashRate := some 1000,
                             needsCooldown := true } : Globals).isTurboMode = true ∧
    checkThermal 5000 { initialGlobals 0 with isTurboMode := true, baselineHashRate := some 1000,
                                              needsCooldown := true } =
      ({ initialGlobals 0 with isTurboMode := true, baselineHashRate := some 1000,
                               needsCooldown := true }, false) :=
  ⟨rfl, (checkThermal_turbo_bypass 5000 _ rfl).1⟩

/-- The governor with turbo off, at the end of a window, with a baseline. -/
theorem checkThermal_window (now : Int) (g : Globals) (b : ℚ)
    (ht : g.isTurboMode = false) (hb : g.baselineHashRate = some b) (hb0 : b ≠ 0)
    (hw : MEASURE_INTERVAL ≤ now - g.lastMeasurement) :
    checkThermal now g =
      ({ g with hashesProcessed := 0, lastMeasurement := now,
                needsCooldown := decide (currentRate now g / b < HASH_THRESHOLD) },
        decide (currentRate now g / b < HASH_THRESHOLD)) := by
  simp [checkThermal, ht, hb, hb0, hw, currentRate]

/-- The governor with turbo off, inside a window. -/
theorem checkThermal_inside (now : Int) (g : Globals)
    (ht : g.isTurboMode = false) (hw : now - g.lastMeasurement < MEASURE_INTERVAL) :
    checkThermal now g =
      ({ g with hashesProcessed := g.hashesProcessed + 1 }, g.needsCooldown) := by
  have : ¬ MEASURE_INTERVAL ≤ now - g.lastMeasurement := by omega
  simp [checkThermal, ht, this]

/-- The governor with turbo off, at the end of a window, without a baseline. -/
theorem checkThermal_baseline (now : Int) (g : Globals)
    (ht : g.isTurboMode = false) (hb : g.baselineHashRate = none)
    (hw : MEASURE_INTERVAL ≤ now - g.lastMeasurement) :
    checkThermal now g =
      ({ g with hashesProcessed := 0, lastMeasurement := now,
                baselineHashRate := some (currentRate now g) }, g.needsCooldown) := by
  simp [checkThermal, ht, hb, hw, currentRate]


/-- The rate of line 113 is positive whenever it is computed. -/
theorem currentRate_pos (now : Int) (g : Globals)
    (hw : MEASURE_INTERVAL ≤ now - g.lastMeasurement) : 0 < currentRate now g := by
  unfold currentRate
  have h1 : (0 : ℚ) < (((g.hashesProcessed + 1) * 1000 : Nat) : ℚ) := by
    exact_mod_cast Nat.mul_pos (Nat.succ_pos _) (by norm_num)
  have h2 : (0 : ℚ) < ((now - g.lastMeasurement : Int) : ℚ) := by
    have : (0 : Int) < now - g.lastMeasurement := by
      simp only [MEASURE_INTERVAL] at hw
      omega
    exact_mod_cast this
  exact div_pos h1 h2

/-- A call of the governor that is entered with no cooldown pending keeps the
baseline positive and suspends exactly when it leaves a cooldown pending. -/
theorem checkThermal_governor (now : Int) (g : Globals)
    (hpos : ∀ b, g.baselineHashRate = some b → 0 < b) (hn : g.needsCooldown = false) :
    (∀ b, (checkThermal now g).1.baselineHashRate = some b → 0 < b) ∧
    (checkThermal now g).1.needsCooldown = (checkThermal now g).2 ∧
    (∀ b, g.baselineHashRate = some b → (checkThermal now g).1.baselineHashRate = some b) := by
  cases ht : g.isTurboMode with
  | true =>
    have h : checkThermal now g = (g, false) := by simp [checkThermal, ht]
    rw [h]
    exact ⟨hpos, hn, fun b hb => hb⟩
  | false =>
    by_cases hw : MEASURE_INTERVAL ≤ now - g.lastMeasurement
    · cases hb : g.baselineHashRate with
      | none =>
        rw [checkThermal_baseline now g ht hb hw]
        refine ⟨fun b hb' => ?_, rfl, fun b hb' => by cases hb'⟩
        simp only [Option.some.injEq] at hb'
        rw [← hb']
        exact currentRate_pos now g hw
      | some b =>
        have hb0 : b ≠ 0 := ne_of_gt (hpos b hb)
        rw [checkThermal_window now g b ht hb hb0 hw]
        refine ⟨fun b' hb' => hpos b' hb', rfl, fun b' hb' => ?_⟩
        first | exact hb' | exact hb.trans hb'
    · rw [checkThermal_inside now g ht (by omega)]
      exact ⟨hpos, rfl, fun b hb => hb⟩

theorem timersStarted_append (L M : List Effect) :
    timersStarted (L ++ M) = timersStarted L + timersStarted M := by
  simp [timersStarted, List.count_append]

/-- Entering the loop test with no cooldown pending keeps the invariant of the
governor; a timer is started exactly when a cooldown becomes pending. -/
theorem processNonceRange_governor (t : Option Data) (n e now : Int) (s : State)
    (hpos : ∀ b, s.g.baselineHashRate = some b → 0 < b) (hn : s.g.needsCooldown = false)
    (hp : s.g.isProcessing = true) :
    GovernorInv (processNonceRange t n e now s) ∧
    timersStarted (processNonceRange t n e now s).log =
      timersStarted s.log +
        (if (processNonceRange t n e now s).g.needsCooldown = true then 1 else 0) ∧
    (∀ b, s.g.baselineHashRate = some b →
      (processNonceRange t n e now s).g.baselineHashRate = some b) := by
  have hidle : ¬ s.g.isProcessing = false := by simp [hp]
  unfold processNonceRange
  by_cases hlt : n < e
  · by_cases hf : s.g.taskDataUpdated = true
    · simp only [hlt, hf, if_true]
      refine ⟨⟨hpos, ?_, fun h => absurd h hidle⟩, by simp [hn], fun b hb => hb⟩
      simp [hn]
    · obtain ⟨c1, c2, c3⟩ := checkThermal_governor now s.g hpos hn
      have c4 := (checkThermal_frame now s.g).2.1
      rcases hct : checkThermal now s.g with ⟨g', cd⟩
      rw [hct] at c1 c2 c3 c4
      simp only at c1 c2 c3 c4
      cases cd with
      | true =>
        simp only [hlt, hf, if_true, if_false, Bool.false_eq_true]
        refine ⟨⟨c1, ?_, fun h => ?_⟩, ?_, c3⟩
        · simp [c2]
        · rw [c4, hp] at h
          cases h
        · rw [timersStarted_append]
          simp [c2, timersStarted]
      | false =>
        simp only [hlt, hf, if_true, if_false, Bool.false_eq_true]
        refine ⟨⟨c1, ?_, fun h => ?_⟩, ?_, c3⟩
        · simp [c2]
        · rw [c4, hp] at h
          cases h
        · rw [timersStarted_append]
          simp [c2, timersStarted]
  · simp only [hlt, if_false]
    refine ⟨⟨hpos, ?_, fun h => absurd h hidle⟩, by simp [hn], fun b hb => hb⟩
    simp [hn]

/-- The top of the loop, with no cooldown pending, keeps the invariant of the
governor. -/
theorem processNonceRanges_governor (now : Int) (s : State)
    (hpos : ∀ b, s.g.baselineHashRate = some b → 0 < b) (hn : s.g.needsCooldown = false)
    (hp : s.g.isProcessing = true) :
    GovernorInv (processNonceRanges now s) ∧
    timersStarted (processNonceRanges now s).log =
      timersStarted s.log +
        (if (processNonceRanges now s).g.needsCooldown = true then 1 else 0) ∧
    (∀ b, s.g.baselineHashRate = some b →
      (processNonceRanges now s).g.baselineHashRate = some b) := by
  unfold processNonceRanges
  by_cases hf : s.g.taskDataUpdated = true
  · simp only [hf, if_true]
    refine ⟨⟨hpos, ?_, fun h => ?_⟩, ?_, fun b hb => hb⟩
    · simp [hn]
    · simp only at h
      rw [hp] at h
      cases h
    · rw [timersStarted_append]
      simp [hn, timersStarted]
  · simp only [hf, if_false]
    exact processNonceRange_governor _ _ _ now s hpos hn hp

/-- The handler leaves the governor's measurements alone and starts the loop
only when it is not marked as running. -/
theorem onmessage_governor (d : Data) (g : Globals) :
    (onmessage d g).1.baselineHashRate = g.baselineHashRate ∧
    (onmessage d g).1.needsCooldown = g.needsCooldown ∧
    ((onmessage d g).2 = true → g.isProcessing = false ∧ (onmessage d g).1.isProcessing = true) ∧
    ((onmessage d g).2 = false → (onmessage d g).1.isProcessing = g.isProcessing) := by
  unfold onmessage
  cases d.turboMode <;> cases d.startNonce <;> cases d.endNonce <;> cases g.isProcessing <;>
    cases g.taskData <;> simp

theorem handler_governor (d : Data) (g : Globals) :
    (handler d g).1.baselineHashRate = g.baselineHashRate ∧
    (handler d g).1.needsCooldown = g.needsCooldown ∧
    (handler d g).1.isProcessing = g.isProcessing := by
  unfold handler
  cases d.startNonce <;> cases d.endNonce <;> simp

/-- Every event keeps the invariant of the governor and the recorded baseline; a
timer is started exactly in the events that make a cooldown pending; a pending
cooldown is cleared by the resumption and by nothing else. -/
theorem step_governor (score : Data → Int → Int → Option String) (s : State) (e : Event)
    (h : GovernorInv s) :
    GovernorInv (step score s e) ∧
    timersStarted (step score s e).log =
      timersStarted s.log +
        (if s.g.needsCooldown = false ∧ (step score s e).g.needsCooldown = true then 1
         else 0) ∧
    (∀ b, s.g.baselineHashRate = some b → (step score s e).g.baselineHashRate = some b) ∧
    (s.g.needsCooldown = true →
      (∀ now, e = .resume now → (step score s e).g.needsCooldown = false) ∧
      (∀ d now, e = .message d now → (step score s e).g.needsCooldown = true)) := by
  obtain ⟨hpos, hcd, hidle⟩ := h
  have hnc : ∀ pc, s.pc = pc → (∀ t n e, pc ≠ .awaitCooldown t n e) →
      s.g.needsCooldown = false := by
    intro pc hpc hne
    cases hc : s.g.needsCooldown with
    | false => rfl
    | true =>
      obtain ⟨t, n, e, hp⟩ := hcd.mp hc
      exact absurd (hpc.symm.trans hp) (hne t n e)
  have hproc : ∀ pc, s.pc = pc → pc ≠ .idle → s.g.isProcessing = true := by
    intro pc hpc hne
    cases hc : s.g.isProcessing with
    | true => rfl
    | false => exact absurd (hpc.symm.trans (hidle hc)) hne
  cases e with
  | message d now =>
    obtain ⟨o1, o2, o3, o4⟩ := onmessage_governor d s.g
    obtain ⟨k1, k2, k3⟩ := handler_governor d (onmessage d s.g).1
    have hlog : timersStarted (s.log ++ [.onmessage d]) = timersStarted s.log := by
      rw [timersStarted_append]; simp [timersStarted]
    rw [step_message_eq]
    by_cases hst : (onmessage d s.g).2 = true
    · obtain ⟨q1, q2⟩ := o3 hst
      have hpc := hidle q1
      have hn := hnc _ hpc (fun _ _ _ h => by cases h)
      rw [if_pos hst]
      obtain ⟨r1, r2, r3⟩ := processNonceRanges_governor now
        { s with g := (onmessage d s.g).1, log := s.log ++ [.onmessage d] }
        (fun b hb => hpos b (o1 ▸ hb)) (o2.trans hn) q2
      refine ⟨r1, ?_, fun b hb => r3 b (o1.trans hb), fun hc => ?_⟩
      · rw [r2]
        show timersStarted (s.log ++ [.onmessage d]) + _ = _
        rw [hlog]
        simp only [hn, true_and]
      · rw [hn] at hc
        cases hc
    · have hst' : (onmessage d s.g).2 = false := by simpa using hst
      have q := o4 hst'
      rw [if_neg hst]
      by_cases hpc : s.pc = .awaitRange
      · have hn := hnc _ hpc (fun _ _ _ h => by cases h)
        have hp := hproc _ hpc (fun h => by cases h)
        rw [if_pos hpc]
        by_cases hres : (handler d (onmessage d s.g).1).2 = true
        · rw [if_pos hres]
          obtain ⟨r1, r2, r3⟩ := processNonceRanges_governor now
            { s with g := (handler d (onmessage d s.g).1).1, log := s.log ++ [.onmessage d] }
            (fun b hb => hpos b ((k1.trans o1) ▸ hb)) ((k2.trans o2).trans hn)
            ((k3.trans q).trans hp)
          refine ⟨r1, ?_, fun b hb => r3 b ((k1.trans o1).trans hb), fun hc => ?_⟩
          · rw [r2]
            show timersStarted (s.log ++ [.onmessage d]) + _ = _
            rw [hlog]
            simp only [hn, true_and]
          · rw [hn] at hc
            cases hc
        · rw [if_neg hres]
          have e2 : (handler d (onmessage d s.g).1).1.needsCooldown = false :=
            (k2.trans o2).trans hn
          refine ⟨⟨fun b hb => hpos b ((k1.trans o1) ▸ hb), ?_, fun hc => ?_⟩, ?_,
            fun b hb => (k1.trans o1).trans hb, fun hc => ?_⟩
          · show (handler d (onmessage d s.g).1).1.needsCooldown = true ↔
              ∃ t n e, s.pc = .awaitCooldown t n e
            rw [e2, ← hn]
            exact hcd
          · have : s.g.isProcessing = false := ((k3.trans q).symm.trans hc)
            rw [hp] at this
            cases this
          · show timersStarted (s.log ++ [.onmessage d]) =
              timersStarted s.log +
                (if s.g.needsCooldown = false ∧
                  (handler d (onmessage d s.g).1).1.needsCooldown = true then 1 else 0)
            rw [hlog, e2]
            simp
          · rw [hn] at hc
            cases hc
      · rw [if_neg hpc]
        refine ⟨⟨fun b hb => hpos b (o1 ▸ hb), ?_, fun hc => hidle (q.symm.trans hc)⟩, ?_,
          fun b hb => o1.trans hb, fun hc => ⟨fun _ h => (by cases h),
            fun _ _ _ => o2.trans hc⟩⟩
        · show (onmessage d s.g).1.needsCooldown = true ↔ ∃ t n e, s.pc = .awaitCooldown t n e
          rw [o2]
          exact hcd
        · show timersStarted (s.log ++ [.onmessage d]) =
            timersStarted s.log +
              (if s.g.needsCooldown = false ∧ (onmessage d s.g).1.needsCooldown = true then 1
               else 0)
          rw [hlog, o2]
          cases s.g.needsCooldown <;> simp
  | resume now =>
    have hsame : GovernorInv s ∧
        timersStarted s.log =
          timersStarted s.log +
            (if s.g.needsCooldown = false ∧ s.g.needsCooldown = true then 1 else 0) ∧
        (∀ b, s.g.baselineHashRate = some b → s.g.baselineHashRate = some b) := by
      refine ⟨⟨hpos, hcd, hidle⟩, ?_, fun b hb => hb⟩
      cases s.g.needsCooldown <;> simp
    have keep : ∀ s' : State, s.g.needsCooldown = false → s.g.isProcessing = true →
        s'.g = s.g → (∀ t n e, s'.pc ≠ .awaitCooldown t n e) →
        timersStarted s'.log = timersStarted s.log →
        GovernorInv s' ∧
        timersStarted s'.log =
          timersStarted s.log +
            (if s.g.needsCooldown = false ∧ s'.g.needsCooldown = true then 1 else 0) ∧
        (∀ b, s.g.baselineHashRate = some b → s'.g.baselineHashRate = some b) ∧
        (s.g.needsCooldown = true →
          (∀ now', Event.resume now = .resume now' → s'.g.needsCooldown = false) ∧
          (∀ d now', Event.resume now = .message d now' → s'.g.needsCooldown = true)) := by
      intro s' hn hpr hg hnc' hl
      refine ⟨⟨fun b hb => hpos b (hg ▸ hb), ?_, fun hc => ?_⟩, ?_,
        fun b hb => by rw [hg]; exact hb, fun hc => ?_⟩
      · rw [hg, hn]
        constructor
        · intro h; cases h
        · rintro ⟨t, n, e, hp⟩; exact absurd hp (hnc' t n e)
      · rw [hg, hpr] at hc
        cases hc
      · rw [hl, hg, hn]
        simp
      · rw [hn] at hc
        cases hc
    have viaLoop : ∀ s2 s' : State, s.g.needsCooldown = false →
        timersStarted s2.log = timersStarted s.log →
        s2.g.baselineHashRate = s.g.baselineHashRate →
        (GovernorInv s' ∧
          timersStarted s'.log =
            timersStarted s2.log + (if s'.g.needsCooldown = true then 1 else 0) ∧
          (∀ b, s2.g.baselineHashRate = some b → s'.g.baselineHashRate = some b)) →
        GovernorInv s' ∧
        timersStarted s'.log =
          timersStarted s.log +
            (if s.g.needsCooldown = false ∧ s'.g.needsCooldown = true then 1 else 0) ∧
        (∀ b, s.g.baselineHashRate = some b → s'.g.baselineHashRate = some b) ∧
        (s.g.needsCooldown = true →
          (∀ now', Event.resume now = .resume now' → s'.g.needsCooldown = false) ∧
          (∀ d now', Event.resume now = .message d now' → s'.g.needsCooldown = true)) := by
      intro s2 s' hn hl hb ⟨r1, r2, r3⟩
      refine ⟨r1, ?_, fun b hb' => r3 b (hb.trans hb'), fun hc => ?_⟩
      · rw [r2, hl]
        simp only [hn, true_and]
      · rw [hn] at hc
        cases hc
    cases hp : s.pc with
    | idle =>
      have hs : step score s (.resume now) = s := by simp [step, hp]
      rw [hs]
      exact ⟨hsame.1, hsame.2.1, hsame.2.2, fun hc => by
        rw [hnc _ hp (fun _ _ _ h => by cases h)] at hc
        cases hc⟩
    | awaitRange =>
      have hs : step score s (.resume now) = s := by simp [step, hp]
      rw [hs]
      exact ⟨hsame.1, hsame.2.1, hsame.2.2, fun hc => by
        rw [hnc _ hp (fun _ _ _ h => by cases h)] at hc
        cases hc⟩
    | finished =>
      have hs : step score s (.resume now) = s := by simp [step, hp]
      rw [hs]
      exact ⟨hsame.1, hsame.2.1, hsame.2.2, fun hc => by
        rw [hnc _ hp (fun _ _ _ h => by cases h)] at hc
        cases hc⟩
    | failed err =>
      have hs : step score s (.resume now) = s := by simp [step, hp]
      rw [hs]
      exact ⟨hsame.1, hsame.2.1, hsame.2.2, fun hc => by
        rw [hnc _ hp (fun _ _ _ h => by cases h)] at hc
        cases hc⟩
    | awaitCooldown t n e =>
      have hpr := hproc _ hp (fun h => by cases h)
      have hs : step score s (.resume now) =
          { s with g := { s.g with needsCooldown := false },
                   pc := .awaitThermal t n e } := by simp [step, hp]
      rw [hs]
      refine ⟨⟨hpos, ?_, fun hc => ?_⟩, ?_, fun b hb => hb,
        fun _ => ⟨fun _ _ => rfl, fun _ _ h => by cases h⟩⟩
      · constructor
        · intro h; cases h
        · rintro ⟨t', n', e', h⟩; cases h
      · have : s.g.isProcessing = false := hc
        rw [hpr] at this
        cases this
      · simp
    | awaitThermal t n e =>
      have hpr := hproc _ hp (fun h => by cases h)
      have hn := hnc _ hp (fun _ _ _ h => by cases h)
      simp only [step, hp, callHash]
      cases t with
      | none =>
        exact keep _ hn hpr rfl (fun _ _ _ h => by cases h) rfl
      | some t =>
        refine keep _ hn hpr rfl (fun _ _ _ h => by cases h) ?_
        rw [timersStarted_append]
        simp [timersStarted]
    | awaitHash t n e ts =>
      have hpr := hproc _ hp (fun h => by cases h)
      have hn := hnc _ hp (fun _ _ _ h => by cases h)
      simp only [step, hp, classify]
      rcases hv : isValidBlock (score t n ts) t.mainFactor t.shareFactor with err | v
      · exact keep _ hn hpr rfl (fun _ _ _ h => by cases h) rfl
      · cases v with
        | valid => exact keep _ hn hpr rfl (fun _ _ _ h => by cases h) rfl
        | share =>
          simp only
          refine viaLoop
            { g := s.g, pc := .awaitHash t n e ts,
              log := s.log ++ [.postMessage (.result
                { state := .share, hash := score t n ts, data := t.data, nonce := n,
                  timestamp := ts, minerId := t.minerId })] } _ hn ?_ rfl
            (processNonceRange_governor (some t) (n + 1) e now _ (by exact hpos) (by exact hn)
              (by exact hpr))
          show timersStarted (s.log ++ _) = _
          rw [timersStarted_append]
          simp [timersStarted]
        | notValid =>
          simp only
          have := processNonceRange_governor (some t) (n + 1) e now s hpos hn hpr
          exact viaLoop s _ hn rfl rfl this
    | awaitResult r =>
      have hpr := hproc _ hp (fun h => by cases h)
      have hn := hnc _ hp (fun _ _ _ h => by cases h)
      simp only [step, hp, afterResult]
      cases r with
      | some r =>
        refine keep _ hn hpr rfl (fun _ _ _ h => by cases h) ?_
        rw [timersStarted_append]
        simp [timersStarted]
      | none =>
        cases hq : s.g.nonceRanges with
        | nil =>
          simp only
          refine keep _ hn hpr rfl (fun _ _ _ h => by cases h) ?_
          rw [timersStarted_append]
          simp [timersStarted]
        | cons r rest =>
          simp only
          exact viaLoop _ _ hn rfl rfl (processNonceRanges_governor now _ hpos hn hpr)

/-! ## The governor in a run -/

/-- A call of the governor that records a baseline: turbo is off, the window has
elapsed, the baseline is the rate of line 113, and no cooldown is applied. -/
theorem checkThermal_records (now : Int) (g : Globals) (hn : g.needsCooldown = false)
    (hb : g.baselineHashRate = none) (b : ℚ)
    (h : (checkThermal now g).1.baselineHashRate = some b) :
    (checkThermal now g).1.needsCooldown = false ∧ (checkThermal now g).2 = false ∧
    b = currentRate now g ∧ MEASURE_INTERVAL ≤ now - g.lastMeasurement := by
  cases ht : g.isTurboMode with
  | true =>
    have h' : checkThermal now g = (g, false) := by simp [checkThermal, ht]
    rw [h'] at h
    rw [hb] at h
    cases h
  | false =>
    by_cases hw : MEASURE_INTERVAL ≤ now - g.lastMeasurement
    · rw [checkThermal_baseline now g ht hb hw] at h ⊢
      simp only [Option.some.injEq] at h
      exact ⟨hn, hn, h.symm, hw⟩
    · rw [checkThermal_inside now g ht (by omega)] at h
      rw [hb] at h
      cases h

theorem processNonceRange_records (t : Option Data) (n e now : Int) (s : State)
    (hn : s.g.needsCooldown = false) (hb : s.g.baselineHashRate = none) (b : ℚ)
    (h : (processNonceRange t n e now s).g.baselineHashRate = some b) :
    (processNonceRange t n e now s).g.needsCooldown = false ∧
    timersStarted (processNonceRange t n e now s).log = timersStarted s.log ∧
    b = currentRate now s.g ∧ MEASURE_INTERVAL ≤ now - s.g.lastMeasurement := by
  unfold processNonceRange at h ⊢
  by_cases hlt : n < e
  · by_cases hf : s.g.taskDataUpdated = true
    · simp only [hlt, hf, if_true] at h
      rw [hb] at h
      cases h
    · have c := checkThermal_records now s.g hn hb b
      rcases hct : checkThermal now s.g with ⟨g', cd⟩
      rw [hct] at c
      cases cd with
      | true =>
        simp only [hlt, hf, hct, if_true, if_false, Bool.false_eq_true] at h ⊢
        have := (c h).2.1
        cases this
      | false =>
        simp only [hlt, hf, hct, if_true, if_false, Bool.false_eq_true] at h ⊢
        obtain ⟨c1, _, c3, c4⟩ := c h
        refine ⟨c1, ?_, c3, c4⟩
        rw [timersStarted_append]
        simp [timersStarted]
  · simp only [hlt, if_false] at h
    rw [hb] at h
    cases h

theorem processNonceRanges_records (now : Int) (s : State)
    (hn : s.g.needsCooldown = false) (hb : s.g.baselineHashRate = none) (b : ℚ)
    (h : (processNonceRanges now s).g.baselineHashRate = some b) :
    (processNonceRanges now s).g.needsCooldown = false ∧
    timersStarted (processNonceRanges now s).log = timersStarted s.log ∧
    b = currentRate now s.g ∧ MEASURE_INTERVAL ≤ now - s.g.lastMeasurement := by
  unfold processNonceRanges at h ⊢
  by_cases hf : s.g.taskDataUpdated = true
  · simp only [hf, if_true] at h
    rw [hb] at h
    cases h
  · simp only [hf, if_false] at h ⊢
    exact processNonceRange_records _ _ _ now s hn hb b h

theorem onmessage_window (d : Data) (g : Globals) :
    (onmessage d g).1.hashesProcessed = g.hashesProcessed ∧
    (onmessage d g).1.lastMeasurement = g.lastMeasurement := by
  unfold onmessage
  cases d.turboMode <;> cases d.startNonce <;> cases d.endNonce <;> cases g.isProcessing <;>
    cases g.taskData <;> simp

theorem handler_window (d : Data) (g : Globals) :
    (handler d g).1.hashesProcessed = g.hashesProcessed ∧
    (handler d g).1.lastMeasurement = g.lastMeasurement := by
  unfold handler
  cases d.startNonce <;> cases d.endNonce <;> simp

/-- The event in which a baseline is recorded: its stretch of code calls the
governor at the end of a window, the baseline is the rate of line 113 at the
clock reading of the event, no timer is started and no cooldown is pending
afterwards. -/
theorem step_records (score : Data → Int → Int → Option String) (s : State) (e : Event)
    (hinv : GovernorInv s) (hb : s.g.baselineHashRate = none) (b : ℚ)
    (h : (step score s e).g.baselineHashRate = some b) :
    (step score s e).g.needsCooldown = false ∧
    timersStarted (step score s e).log = timersStarted s.log ∧
    ∃ now, (e = .resume now ∨ ∃ d, e = .message d now) ∧
      b = currentRate now s.g ∧ MEASURE_INTERVAL ≤ now - s.g.lastMeasurement := by
  obtain ⟨hpos, hcd, hidle⟩ := hinv
  have hnc : ∀ pc, s.pc = pc → (∀ t n e, pc ≠ .awaitCooldown t n e) →
      s.g.needsCooldown = false := by
    intro pc hpc hne
    cases hc : s.g.needsCooldown with
    | false => rfl
    | true =>
      obtain ⟨t, n, e, hp⟩ := hcd.mp hc
      exact absurd (hpc.symm.trans hp) (hne t n e)
  have hno : ∀ s' : State, s'.g.baselineHashRate = s.g.baselineHashRate →
      s'.g.baselineHashRate = some b → False := by
    intro s' h1 h2
    rw [h1, hb] at h2
    cases h2
  have hlog : ∀ x : Effect, x ≠ .setTimeout →
      timersStarted (s.log ++ [x]) = timersStarted s.log := by
    intro x hx
    rw [timersStarted_append]
    simp [timersStarted, List.count_singleton, hx.symm]
  cases e with
  | message d now =>
    obtain ⟨o1, o2, o3, o4⟩ := onmessage_governor d s.g
    obtain ⟨k1, k2, k3⟩ := handler_governor d (onmessage d s.g).1
    obtain ⟨w1, w2⟩ := onmessage_window d s.g
    obtain ⟨v1, v2⟩ := handler_window d (onmessage d s.g).1
    rw [step_message_eq] at h ⊢
    by_cases hst : (onmessage d s.g).2 = true
    · have hn := hnc _ (hidle (o3 hst).1) (fun _ _ _ h => by cases h)
      rw [if_pos hst] at h ⊢
      obtain ⟨r1, r2, r3, r4⟩ := processNonceRanges_records now
        { s with g := (onmessage d s.g).1, log := s.log ++ [.onmessage d] }
        (o2.trans hn) (o1.trans hb) b h
      refine ⟨r1, r2.trans (hlog _ (by simp)), now, Or.inr ⟨d, rfl⟩, ?_, ?_⟩
      · rw [r3]
        simp only [currentRate, w1, w2]
      · simpa only [w2] using r4
    · rw [if_neg hst] at h ⊢
      by_cases hp : s.pc = .awaitRange
      · have hn := hnc _ hp (fun _ _ _ h => by cases h)
        rw [if_pos hp] at h ⊢
        by_cases hr : (handler d (onmessage d s.g).1).2 = true
        · rw [if_pos hr] at h ⊢
          obtain ⟨r1, r2, r3, r4⟩ := processNonceRanges_records now
            { s with g := (handler d (onmessage d s.g).1).1, log := s.log ++ [.onmessage d] }
            (k2.trans (o2.trans hn)) (k1.trans (o1.trans hb)) b h
          refine ⟨r1, r2.trans (hlog _ (by simp)), now, Or.inr ⟨d, rfl⟩, ?_, ?_⟩
          · rw [r3]
            simp only [currentRate, w1, w2, v1, v2]
          · simpa only [w2, v2] using r4
        · rw [if_neg hr] at h
          exact (hno _ (k1.trans o1) h).elim
      · rw [if_neg hp] at h
        exact (hno _ o1 h).elim
  | resume now =>
    cases hp : s.pc with
    | idle => simp only [step, hp] at h; exact (hno _ rfl h).elim
    | awaitRange => simp only [step, hp] at h; exact (hno _ rfl h).elim
    | finished => simp only [step, hp] at h; exact (hno _ rfl h).elim
    | failed err => simp only [step, hp] at h; exact (hno _ rfl h).elim
    | awaitCooldown t n e => simp only [step, hp] at h; exact (hno s rfl h).elim
    | awaitThermal t n e =>
      simp only [step, hp, callHash] at h
      cases t with
      | none => exact (hno _ rfl h).elim
      | some t => exact (hno _ rfl h).elim
    | awaitHash t n e ts =>
      have hn := hnc _ hp (fun _ _ _ h => by cases h)
      simp only [step, hp, classify] at h ⊢
      rcases hv : isValidBlock (score t n ts) t.mainFactor t.shareFactor with err | v
      · rw [hv] at h
        exact (hno _ rfl h).elim
      · rw [hv] at h
        cases v with
        | valid => exact (hno _ rfl h).elim
        | share =>
          simp only at h ⊢
          obtain ⟨r1, r2, r3, r4⟩ := processNonceRange_records (some t) (n + 1) e now _
            (by exact hn) (by exact hb) b h
          exact ⟨r1, r2.trans (hlog _ (by simp)), now, Or.inl rfl, r3, r4⟩
        | notValid =>
          simp only at h ⊢
          obtain ⟨r1, r2, r3, r4⟩ := processNonceRange_records (some t) (n + 1) e now s
            hn hb b h
          exact ⟨r1, r2, now, Or.inl rfl, r3, r4⟩
    | awaitResult r =>
      have hn := hnc _ hp (fun _ _ _ h => by cases h)
      simp only [step, hp, afterResult] at h ⊢
      cases r with
      | some r => exact (hno _ rfl h).elim
      | none =>
        cases hq : s.g.nonceRanges with
        | nil =>
          rw [hq] at h
          exact (hno _ rfl h).elim
        | cons r rest =>
          rw [hq] at h
          simp only at h ⊢
          obtain ⟨r1, r2, r3, r4⟩ := processNonceRanges_records now _
            (by exact hn) (by exact hb) b h
          exact ⟨r1, r2, now, Or.inl rfl, r3, r4⟩

theorem GovernorInv_initial (loadTime : Int) : GovernorInv (initialState loadTime) :=
  ⟨fun _ h => (by cases h), ⟨fun h => (by cases h), fun ⟨_, _, _, h⟩ => (by cases h)⟩,
    fun _ => rfl⟩

/-- The invariant of the governor holds in every run, and a recorded baseline is kept. -/
theorem run_governor (score : Data → Int → Int → Option String) (events : List Event) :
    ∀ s : State, GovernorInv s →
      GovernorInv (run score s events) ∧
      ∀ b, s.g.baselineHashRate = some b → (run score s events).g.baselineHashRate = some b := by
  induction events with
  | nil => intro s h; exact ⟨h, fun _ hb => hb⟩
  | cons e events ih =>
    intro s h
    obtain ⟨h1, _, h3, _⟩ := step_governor score s e h
    obtain ⟨i1, i2⟩ := ih (step score s e) h1
    exact ⟨i1, fun b hb => i2 b (h3 b hb)⟩

/-- A recorded baseline that is not zero is kept by every call of the governor. -/
theorem checkThermal_keeps_baseline (now : Int) (g : Globals) (b : ℚ)
    (hb : g.baselineHashRate = some b) (hb0 : b ≠ 0) :
    (checkThermal now g).1.baselineHashRate = some b := by
  cases ht : g.isTurboMode with
  | true =>
    have h : checkThermal now g = (g, false) := by simp [checkThermal, ht]
    rw [h]
    exact hb
  | false =>
    by_cases hw : MEASURE_INTERVAL ≤ now - g.lastMeasurement
    · rw [checkThermal_window now g b ht hb hb0 hw]
      exact hb
    · rw [checkThermal_inside now g ht (by omega)]
      exact hb

theorem run_append (score : Data → Int → Int → Option String) (s : State)
    (events more : List Event) :
    run score s (events ++ more) = run score (run score s events) more := by
  simp [run, List.foldl_append]

/-- The timers started in a run are the cooldowns that became pending in it. -/
theorem run_timers (score : Data → Int → Int → Option String) (events : List Event) :
    ∀ s : State, GovernorInv s →
      timersStarted (run score s events).log = timersStarted s.log + cooldownsSet score s events := by
  induction events with
  | nil => intro s _; rfl
  | cons e events ih =>
    intro s h
    obtain ⟨h1, h2, _, _⟩ := step_governor score s e h
    have := ih (step score s e) h1
    show timersStarted (run score (step score s e) events).log = _
    rw [this, h2, cooldownsSet]
    omega

/-- C14: the baseline is recorded once.  With turbo off, a call of `checkThermal` at which
the window has elapsed and no baseline is recorded sets the baseline to
`count · 1000 / elapsed` (the count including the call), starts the next
window, and does not suspend on the cooldown timer.  A recorded baseline that
is not zero is returned unchanged by every call of `checkThermal`, whatever the
other variables and the clock reading.  In every state the worker reaches from
its initial state, a recorded baseline is not zero, a call of `checkThermal`
keeps it, and so does every further sequence of events; and the event in which
the baseline gets recorded starts no timer, leaves no cooldown pending, and
records the rate measured at its clock reading at the end of a window. -/
theorem baseline_one_shot (score : Data → Int → Int → Option String) (loadTime : Int)
    (events : List Event) :
    (∀ now g, g.isTurboMode = false → g.baselineHashRate = none → g.needsCooldown = false →
      MEASURE_INTERVAL ≤ now - g.lastMeasurement →
      checkThermal now g =
        ({ g with hashesProcessed := 0, lastMeasurement := now,
                  baselineHashRate := some (currentRate now g) }, false)) ∧
    (∀ now g b, g.baselineHashRate = some b → b ≠ 0 →
      (checkThermal now g).1.baselineHashRate = some b) ∧
    (∀ b, (run score (initialState loadTime) events).g.baselineHashRate = some b →
      b ≠ 0 ∧
      (∀ now, (checkThermal now
        (run score (initialState loadTime) events).g).1.baselineHashRate = some b) ∧
      ∀ more, (run score (initialState loadTime) (events ++ more)).g.baselineHashRate
        = some b) ∧
    (∀ e b, (run score (initialState loadTime) events).g.baselineHashRate = none →
      (run score (initialState loadTime) (events ++ [e])).g.baselineHashRate = some b →
      (run score (initialState loadTime) (events ++ [e])).g.needsCooldown = false ∧
      timersStarted (run score (initialState loadTime) (events ++ [e])).log =
        timersStarted (run score (initialState loadTime) events).log ∧
      ∃ now, (e = .resume now ∨ ∃ d, e = .message d now) ∧
        b = currentRate now (run score (initialState loadTime) events).g ∧
        MEASURE_INTERVAL ≤ now - (run score (initialState loadTime) events).g.lastMeasurement) := by
  have hinv := (run_governor score events _ (GovernorInv_initial loadTime)).1
  refine ⟨?_, checkThermal_keeps_baseline, ?_, ?_⟩
  · intro now g ht hb hn hw
    rw [checkThermal_baseline now g ht hb hw, hn]
  · intro b hb
    have hb0 : b ≠ 0 := ne_of_gt (hinv.1 b hb)
    refine ⟨hb0, fun now => checkThermal_keeps_baseline now _ b hb hb0, fun more => ?_⟩
    rw [run_append]
    exact (run_governor score more _ hinv).2 b hb
  · intro e b hb h
    rw [run_append] at h ⊢
    exact step_records score _ e hinv hb b h

/-- C14 at the first call after the script was loaded at time 0, made at time 2000. -/
theorem baseline_one_shot_witness :
    checkThermal 2000 (initialGlobals 0) =
      ({ initialGlobals 0 with hashesProcessed := 0, lastMeasurement := 2000,
                               baselineHashRate := some (currentRate 2000 (initialGlobals 0)) },
        false) :=
  (baseline_one_shot (fun _ _ _ => none) 0 []).1 2000 (initialGlobals 0) rfl rfl rfl
    (by decide)

/-- A message delivered while the cooldown timer runs leaves the coroutine on the timer. -/
theorem step_message_cooling (score : Data → Int → Int → Option String) (s : State)
    (d : Data) (now : Int) (t : Option Data) (n e : Int) (hinv : GovernorInv s)
    (hp : s.pc = .awaitCooldown t n e) :
    step score s (.message d now) =
      { s with g := (onmessage d s.g).1, log := s.log ++ [.onmessage d] } := by
  have hproc : s.g.isProcessing = true := by
    cases hc : s.g.isProcessing with
    | true => rfl
    | false =>
      have := hinv.2.2 hc
      rw [hp] at this
      cases this
  obtain ⟨_, _, o3, _⟩ := onmessage_governor d s.g
  have hst : ¬ (onmessage d s.g).2 = true := by
    intro h
    have := (o3 h).1
    rw [hproc] at this
    cases this
  have hne : ¬ s.pc = .awaitRange := by
    rw [hp]
    intro h
    cases h
  rw [step_message_eq, if_neg hst, if_neg hne]

/-- C15: in every state the worker reaches from its initial state, a cooldown is pending
(`needsCooldown` is true) exactly while the coroutine is suspended on the timer
of line 127, inside `checkThermal`; so it is false whenever `checkThermal` has
returned (the `await` of line 140) and at every other suspension.  In every
event, a timer is started exactly when the cooldown becomes pending, one timer,
and in no other event; the timers started in a run are as many as the
cooldowns that became pending.  While the timer runs, a message leaves the
coroutine on the timer and the cooldown pending and starts no timer; the
resumption when the timer fires clears the cooldown, starts no timer, and
returns from `checkThermal`. -/
theorem cooldown_never_left_set (score : Data → Int → Int → Option String) (loadTime : Int)
    (events : List Event) :
    ((run score (initialState loadTime) events).g.needsCooldown = true ↔
      ∃ t n e, (run score (initialState loadTime) events).pc = .awaitCooldown t n e) ∧
    (∀ t n e, (run score (initialState loadTime) events).pc = .awaitThermal t n e →
      (run score (initialState loadTime) events).g.needsCooldown = false) ∧
    (∀ e, timersStarted (run score (initialState loadTime) (events ++ [e])).log =
      timersStarted (run score (initialState loadTime) events).log +
        (if (run score (initialState loadTime) events).g.needsCooldown = false ∧
            (run score (initialState loadTime) (events ++ [e])).g.needsCooldown = true
         then 1 else 0)) ∧
    timersStarted (run score (initialState loadTime) events).log =
      cooldownsSet score (initialState loadTime) events ∧
    (∀ t n e d now, (run score (initialState loadTime) events).pc = .awaitCooldown t n e →
      (run score (initialState loadTime) (events ++ [.message d now])).pc
        = .awaitCooldown t n e ∧
      (run score (initialState loadTime) (events ++ [.message d now])).g.needsCooldown = true ∧
      timersStarted (run score (initialState loadTime) (events ++ [.message d now])).log =
        timersStarted (run score (initialState loadTime) events).log) ∧
    (∀ t n e now, (run score (initialState loadTime) events).pc = .awaitCooldown t n e →
      (run score (initialState loadTime) (events ++ [.resume now])).pc
        = .awaitThermal t n e ∧
      (run score (initialState loadTime) (events ++ [.resume now])).g.needsCooldown = false ∧
      timersStarted (run score (initialState loadTime) (events ++ [.resume now])).log =
        timersStarted (run score (initialState loadTime) events).log) := by
  have hinv := (run_governor score events _ (GovernorInv_initial loadTime)).1
  have ht := run_timers score events _ (GovernorInv_initial loadTime)
  generalize hs : run score (initialState loadTime) events = s at hinv ht
  have hstep : ∀ e, run score (initialState loadTime) (events ++ [e]) = step score s e := by
    intro e
    rw [run_append, hs]
    rfl
  refine ⟨hinv.2.1, ?_, ?_, ?_, ?_, ?_⟩
  · intro t n e hp
    cases hc : s.g.needsCooldown with
    | false => rfl
    | true =>
      obtain ⟨t', n', e', h⟩ := hinv.2.1.mp hc
      rw [hp] at h
      cases h
  · intro e
    rw [hstep]
    exact (step_governor score s e hinv).2.1
  · rw [ht]
    simp [initialState, timersStarted]
  · intro t n e d now hp
    have hc : s.g.needsCooldown = true := hinv.2.1.mpr ⟨t, n, e, hp⟩
    have hg := step_governor score s (.message d now) hinv
    have hc' := (hg.2.2.2 hc).2 d now rfl
    rw [hstep]
    refine ⟨?_, hc', ?_⟩
    · rw [step_message_cooling score s d now t n e hinv hp]
      exact hp
    · rw [hg.2.1]
      simp [hc]
  · intro t n e now hp
    have hc : s.g.needsCooldown = true := hinv.2.1.mpr ⟨t, n, e, hp⟩
    have hg := step_governor score s (.resume now) hinv
    rw [hstep]
    refine ⟨?_, (hg.2.2.2 hc).1 now rfl, ?_⟩
    · simp [step, hp]
    · rw [hg.2.1]
      simp [hc]

/-- C20: in every state the worker reaches from its initial state, a recorded baseline is
strictly positive, so the test of line 115 (`!baselineHashRate`, true for
`null` and for 0) holds exactly when no baseline has been recorded, and the
divisor of line 118 is not zero.  A call of the governor computes a rate only
with turbo off at the end of a window: then the count, the call included, is at
least 1, the elapsed time is at least 2000 ms, the rate is their exact
quotient times 1000 and is strictly positive; with no baseline recorded it
becomes the baseline, and with a baseline `b` recorded the cooldown is decided
by the quotient of the rate by `b`.  The sample count is a natural number. -/
theorem rate_ratio_well_defined (score : Data → Int → Int → Option String) (loadTime : Int)
    (events : List Event) :
    (∀ b, (run score (initialState loadTime) events).g.baselineHashRate = some b → 0 < b) ∧
    (((run score (initialState loadTime) events).g.baselineHashRate = none ∨
        (run score (initialState loadTime) events).g.baselineHashRate = some 0) ↔
      (run score (initialState loadTime) events).g.baselineHashRate = none) ∧
    (∀ now, (run score (initialState loadTime) events).g.isTurboMode = false →
      MEASURE_INTERVAL ≤ now - (run score (initialState loadTime) events).g.lastMeasurement →
      1 ≤ (run score (initialState loadTime) events).g.hashesProcessed + 1 ∧
      2000 ≤ now - (run score (initialState loadTime) events).g.lastMeasurement ∧
      currentRate now (run score (initialState loadTime) events).g =
        ((((run score (initialState loadTime) events).g.hashesProcessed + 1 : Nat) : ℚ) * 1000) /
          ((now - (run score (initialState loadTime) events).g.lastMeasurement : Int) : ℚ) ∧
      0 < currentRate now (run score (initialState loadTime) events).g ∧
      ((run score (initialState loadTime) events).g.baselineHashRate = none →
        (checkThermal now (run score (initialState loadTime) events).g).1.baselineHashRate =
          some (currentRate now (run score (initialState loadTime) events).g)) ∧
      (∀ b, (run score (initialState loadTime) events).g.baselineHashRate = some b →
        b ≠ 0 ∧
        (checkThermal now (run score (initialState loadTime) events).g).2 =
          decide (currentRate now (run score (initialState loadTime) events).g / b
            < HASH_THRESHOLD))) ∧
    (∀ now, ((run score (initialState loadTime) events).g.isTurboMode = true ∨
        now - (run score (initialState loadTime) events).g.lastMeasurement < MEASURE_INTERVAL) →
      (checkThermal now (run score (initialState loadTime) events).g).1.baselineHashRate =
        (run score (initialState loadTime) events).g.baselineHashRate ∧
      (checkThermal now (run score (initialState loadTime) events).g).1.needsCooldown =
        (run score (initialState loadTime) events).g.needsCooldown ∧
      (checkThermal now (run score (initialState loadTime) events).g).1.lastMeasurement =
        (run score (initialState loadTime) events).g.lastMeasurement) := by
  have hinv := (run_governor score events _ (GovernorInv_initial loadTime)).1
  generalize run score (initialState loadTime) events = s at hinv
  refine ⟨hinv.1, ?_, ?_, ?_⟩
  · constructor
    · rintro (h | h)
      · exact h
      · exact absurd (hinv.1 0 h) (lt_irrefl 0)
    · exact Or.inl
  · intro now ht hw
    refine ⟨Nat.succ_pos _, hw, ?_, currentRate_pos now s.g hw, ?_, ?_⟩
    · simp only [currentRate, Nat.cast_mul, Nat.cast_ofNat]
    · intro hb
      rw [checkThermal_baseline now s.g ht hb hw]
    · intro b hb
      have hb0 : b ≠ 0 := ne_of_gt (hinv.1 b hb)
      refine ⟨hb0, ?_⟩
      rw [checkThermal_window now s.g b ht hb hb0 hw]
  · intro now h
    rcases h with h | h
    · have : checkThermal now s.g = (s.g, false) := by simp [checkThermal, h]
      rw [this]
      exact ⟨rfl, rfl, rfl⟩
    · cases ht : s.g.isTurboMode with
      | true =>
        have : checkThermal now s.g = (s.g, false) := by simp [checkThermal, ht]
        rw [this]
        exact ⟨rfl, rfl, rfl⟩
      | false =>
        rw [checkThermal_inside now s.g ht h]
        exact ⟨rfl, rfl, rfl⟩

/-- C15 on the run of `replacementWhileCooling`: the second call of the governor starts
the timer, and the resumption at 11000 clears the cooldown and returns from
`checkThermal`. -/
theorem cooldown_never_left_set_witness :
    (run scenarioScoreShare (initialState 0) (replacementWhileCooling.take 4)).pc =
      .awaitCooldown (some scenarioTask) 1 3 ∧
    (run scenarioScoreShare (initialState 0)
      (replacementWhileCooling.take 4 ++ [.resume 11000])).pc =
        .awaitThermal (some scenarioTask) 1 3 ∧
    (run scenarioScoreShare (initialState 0)
      (replacementWhileCooling.take 4 ++ [.resume 11000])).g.needsCooldown = false ∧
    timersStarted (run scenarioScoreShare (initialState 0)
      (replacementWhileCooling.take 4 ++ [.resume 11000])).log =
        timersStarted (run scenarioScoreShare (initialState 0)
          (replacementWhileCooling.take 4)).log :=
  ⟨by rw [replacementWhileCooling_timer],
    (cooldown_never_left_set scenarioScoreShare 0 (replacementWhileCooling.take 4)).2.2.2.2.2
      (some scenarioTask) 1 3 11000 (by rw [replacementWhileCooling_timer])⟩

/-- C20 on the run of `replacementWhileCooling`: the baseline recorded is 1/2 per second. -/
theorem rate_ratio_well_defined_witness :
    (run scenarioScoreShare (initialState 0)
      (replacementWhileCooling.take 4)).g.baselineHashRate = some (1 / 2) ∧
    (0 : ℚ) < 1 / 2 :=
  ⟨by rw [replacementWhileCooling_timer],
    (rate_ratio_well_defined scenarioScoreShare 0 (replacementWhileCooling.take 4)).1 (1 / 2)
      (by rw [replacementWhileCooling_timer])⟩

/-! ## After a Valid result -/

/-- A message without both bounds that does not start the loop is handed to
`onmessage` and to nothing else. -/
theorem step_message_other (score : Data → Int → Int → Option String) (s : State) (d : Data)
    (now : Int) (hr : d.startNonce = none ∨ d.endNonce = none) :
    step score s (.message d now) =
      { s with g := (onmessage d s.g).1, log := s.log ++ [.onmessage d] } := by
  have o1 := (onmessage_other d s.g hr).1
  have hh := handler_not_range d (onmessage d s.g).1 hr
  rw [step_message_eq]
  by_cases hp : s.pc = .awaitRange
  · simp [o1, hh, hp]
  · simp [o1, hp]

/-- C17: for a message with no `turboMode` field and without `startNonce` or without `endNonce`.
The handler stores the message itself as the Task and calls nothing.  When no
Task was stored it changes no other variable, the flag included; when a Task
was stored it also sets the flag, and changes nothing else.  In both cases the
queue, the bounds, the mark `isProcessing` and the variables of the governor
(sample count, window start, baseline, pending cooldown, turbo) are unchanged,
and the event does nothing but run the handler: the coroutine stays where it is
suspended, the one-shot listener does not resolve, nothing is posted and nothing
scored. -/
theorem task_definition_stored (d : Data) (g : Globals) (ht : d.turboMode = none)
    (hr : d.startNonce = none ∨ d.endNonce = none) :
    (onmessage d g).1.taskData = some d ∧ (onmessage d g).2 = false ∧
    (g.taskData = none → (onmessage d g).1 = { g with taskData := some d }) ∧
    (g.taskData ≠ none →
      (onmessage d g).1 = { g with taskDataUpdated := true, taskData := some d }) ∧
    ((onmessage d g).1.nonceRanges = g.nonceRanges ∧
      (onmessage d g).1.startNonce = g.startNonce ∧
      (onmessage d g).1.endNonce = g.endNonce ∧
      (onmessage d g).1.isProcessing = g.isProcessing ∧
      (onmessage d g).1.hashesProcessed = g.hashesProcessed ∧
      (onmessage d g).1.lastMeasurement = g.lastMeasurement ∧
      (onmessage d g).1.baselineHashRate = g.baselineHashRate ∧
      (onmessage d g).1.needsCooldown = g.needsCooldown ∧
      (onmessage d g).1.isTurboMode = g.isTurboMode) ∧
    (∀ (score : Data → Int → Int → Option String) (s : State) now, s.g = g →
      step score s (.message d now) =
        { s with g := (onmessage d g).1, log := s.log ++ [.onmessage d] } ∧
      (step score s (.message d now)).pc = s.pc ∧
      posted (step score s (.message d now)).log = posted s.log ∧
      scoreCalls (step score s (.message d now)).log = scoreCalls s.log) := by
  have hcore : onmessage d g =
      (if g.taskData.isSome then { g with taskDataUpdated := true, taskData := some d }
       else { g with taskData := some d }, false) := by
    unfold onmessage
    rcases hr with hr | hr <;> rw [ht, hr] <;> cases d.startNonce <;> cases d.endNonce <;>
      cases g.taskData <;> simp
  refine ⟨?_, ?_, ?_, ?_, ?_, ?_⟩
  · rw [hcore]
    cases g.taskData <;> rfl
  · rw [hcore]
  · intro h
    rw [hcore, h]
    rfl
  · intro h
    rw [hcore]
    cases htd : g.taskData with
    | none => exact absurd htd h
    | some t => rfl
  · rw [hcore]
    cases g.taskData <;> exact ⟨rfl, rfl, rfl, rfl, rfl, rfl, rfl, rfl, rfl⟩
  · intro score s now hs
    subst hs
    have hstep := step_message_other score s d now hr
    rw [hstep]
    refine ⟨rfl, rfl, ?_, ?_⟩
    · rw [posted_append]; simp [posted]
    · rw [scoreCalls_append]; simp [scoreCalls]

/-- C17 on the Task of the scenarios: delivered first it is stored and the flag stays
clear; a second definition replaces it and sets the flag. -/
theorem task_definition_stored_witness :
    (scenarioTask.turboMode = none ∧ (scenarioTask.startNonce = none ∨ scenarioTask.endNonce = none)) ∧
    (onmessage scenarioTask (initialGlobals 0)).1 =
      { initialGlobals 0 with taskData := some scenarioTask } ∧
    (onmessage scenarioTask2 { initialGlobals 0 with taskData := some scenarioTask }).1 =
      { initialGlobals 0 with taskDataUpdated := true, taskData := some scenarioTask2 } :=
  ⟨⟨rfl, Or.inl rfl⟩,
    (task_definition_stored scenarioTask (initialGlobals 0) rfl (Or.inl rfl)).2.2.1 rfl,
    (task_definition_stored scenarioTask2 { initialGlobals 0 with taskData := some scenarioTask }
      rfl (Or.inl rfl)).2.2.2.1 (by simp)⟩

/-! ## Messages of no known shape -/

end MiningWorker
